import Mathlib

/-!
# NS1 Terraform provider: record and zone converters

A shallow embedding of `ns1/resource_record.go` and `ns1/data_source_zone.go`.

Conventions of the embedding

* A Go `string` is a Lean `String`; a one-byte separator is a `Char`.
* A Go `error` is observed through its `Error()` message (`GoError`).
* A Go `map` is an association list that stands for one iteration order of
  the map; well-formed maps have pairwise distinct keys.
* `*schema.ResourceData` is a typed record of the schema's fields.  A nested
  `map[string]interface{}` element keeps the presence of a key as an `Option`.
* Functions of the client library (`data.Meta`, `dns.NewRecord`) and of the
  host runtime (`d.Set` on a nested list or on a slice of structs) that are not
  part of this repository are taken as parameters, bundled in `Lib` and
  `ZoneHost`.
* A `schema.TypeSet` field of the zone data source is a finite set.
* `log.Printf` / `log.Println` calls have no effect on the values computed and
  are left out.
-/

namespace NS1

/-! ## Go runtime pieces -/

deriving instance DecidableEq for Except

/-- A Go `error`, observed through the message returned by `Error()`. -/
structure GoError where
  Error : String
deriving DecidableEq, Repr

/-- The Go call `errors.New(text)`. -/
def errorsNew (text : String) : GoError := ⟨text⟩

/-- The Go call `strings.Split(s, sep)` for a one-byte separator `sep`:
the pieces of `s` between the occurrences of `sep` (never the empty list). -/
def stringsSplit (s : String) (sep : Char) : List String :=
  (s.data.splitOn sep).map String.mk

/-- The Go call `strings.Join(elems, sep)`. -/
def stringsJoin (elems : List String) (sep : String) : String :=
  String.mk (sep.data.intercalate (elems.map String.data))

/-- Number of occurrences of the byte `c` in `s`. -/
def countByte (s : String) (c : Char) : Nat := s.data.count c

/-- Whether `sub` occurs in `s` as a contiguous substring. -/
def containsStr (s sub : String) : Bool :=
  s.data.tails.any (fun t => sub.data.isPrefixOf t)

/-- The Go builtin `copy(b[bp:], src)`: overwrites `b` from offset `bp` with as
many elements of `src` as fit; returns the new buffer and the number copied. -/
def copy (b : List Char) (bp : Nat) (src : List Char) : List Char × Nat :=
  let k := min (b.length - bp) src.length
  (b.take bp ++ src.take k ++ b.drop (bp + k), k)

/-! ## State containers (`schema.ResourceData`) -/

/-- A `schema.TypeMap` value (`map[string]interface{}`). -/
abbrev StateMap := List (String × String)

/-- One element of the `answers` list. -/
structure AnswerEntry where
  answer : String
  region : Option String
  meta : Option StateMap
deriving DecidableEq, Repr

/-- One element of the `regions` list. -/
structure RegionEntry where
  name : String
  meta : Option StateMap
deriving DecidableEq, Repr

/-- One element of the `filters` list. -/
structure FilterEntry where
  filter : String
  disabled : Option Bool
  config : Option StateMap
deriving DecidableEq, Repr

/-- The `schema.ResourceData` of an `ns1_record` resource. -/
structure ResourceData where
  id : String
  zone : String
  domain : String
  type : String
  ttl : Int
  meta : StateMap
  link : String
  use_client_subnet : Bool
  short_answers : List String
  answers : List AnswerEntry
  regions : List RegionEntry
  filters : List FilterEntry
deriving DecidableEq, Repr

/-! ## Domain model of the client library (`dns`, `data`, `filter`) -/

/-- The library type `dns.Answer`; `M` is the library type `data.Meta`. -/
structure Answer (M : Type) where
  Meta : Option M
  Rdata : List String
  RegionName : String
deriving DecidableEq, Repr

/-- The library type `filter.Filter`; a nil `Config` map is `none`. -/
structure Filter where
  Typ : String
  Disabled : Bool
  Config : Option StateMap
deriving DecidableEq, Repr

/-- The library type `data.Region`. -/
structure Region (M : Type) where
  Meta : M
deriving DecidableEq, Repr

/-- The library type `dns.Record`; `Regions` is the Go map `data.Regions`. -/
structure Record (M : Type) where
  Meta : Option M
  ID : String
  Zone : String
  Domain : String
  Typ : String
  Link : String
  TTL : Int
  UseClientSubnet : Option Bool
  Answers : List (Answer M)
  Filters : List Filter
  Regions : List (String × Region M)
deriving DecidableEq, Repr

/-- What this code uses from outside the repository.
`emptyMeta` is the zero value `data.Meta{}`; `MetaFromMap`, `StringMap` and
`Validate` are the library functions of `data.Meta`; `structsMap` is
`structs.Map` on a `*data.Meta`; `qualify zone domain` is the domain that
`dns.NewRecord` stores; `setAnswers` / `setRegions` give, when `d.Set` refuses
the list, the `%#v` rendering of the error it returns. -/
structure Lib (M : Type) where
  emptyMeta : M
  MetaFromMap : StateMap → M
  StringMap : M → StateMap
  structsMap : M → StateMap
  Validate : M → List GoError
  qualify : String → String → String
  setAnswers : List AnswerEntry → Option String
  setRegions : List RegionEntry → Option String

/-- The library constructor `dns.NewAnswer(rdata)`. -/
def NewAnswer {M : Type} (L : Lib M) (rdata : List String) : Answer M :=
  { Meta := some L.emptyMeta, Rdata := rdata, RegionName := "" }

/-- The library constructor `dns.NewTXTAnswer(s)`. -/
def NewTXTAnswer {M : Type} (L : Lib M) (s : String) : Answer M :=
  NewAnswer L [s]

/-- The library constructor `dns.NewRecord(zone, domain, t)`. -/
def NewRecord {M : Type} (L : Lib M) (zone domain t : String) : Record M :=
  { Meta := some L.emptyMeta, ID := "", Zone := zone, Domain := L.qualify zone domain,
    Typ := t, Link := "", TTL := 0, UseClientSubnet := none, Answers := [],
    Filters := [], Regions := [] }

/-- The library method `(*dns.Record).AddAnswer`. -/
def Record.AddAnswer {M : Type} (r : Record M) (ans : Answer M) : Record M :=
  { r with Answers := r.Answers ++ [ans] }

/-- The library method `(*dns.Record).LinkTo`. -/
def Record.LinkTo {M : Type} (r : Record M) (target : String) : Record M :=
  { r with Meta := none, Answers := [], Link := target }

/-- Go map assignment `m[k] = v`. -/
def mapSet {β : Type} (m : List (String × β)) (k : String) (v : β) : List (String × β) :=
  if m.any (fun p => p.1 == k) then m.map (fun p => if p.1 = k then (k, v) else p)
  else m ++ [(k, v)]

/-- Go map read `m[k]` with the zero value `zero` for a missing key. -/
def mapGet {β : Type} (m : List (String × β)) (k : String) (zero : β) : β :=
  match m.lookup k with
  | some v => v
  | none => zero

/-- The Go call `sort.Strings(keys)`: increasing order of the strings, compared
as sequences of characters. -/
def sortStrings (keys : List String) : List String :=
  keys.insertionSort (fun a b => a.data ≤ b.data)

/-! ## Record converter -/

/-- The function `errJoin` (resource_record.go, lines 147-175). -/
def errJoin (errs : List GoError) (sep : String) : Option GoError :=
  match errs with
  | [] => none
  | [e0] => some e0
  | [e0, e1] => some (errorsNew (e0.Error ++ sep ++ e1.Error))
  | [e0, e1, e2] => some (errorsNew (e0.Error ++ sep ++ e1.Error ++ sep ++ e2.Error))
  | e0 :: rest =>
    let n := sep.length * (errs.length - 1)
    let n := errs.foldl (fun n e => n + e.Error.length) n
    let b := List.replicate n (Char.ofNat 0)
    let (b, bp) := copy b 0 e0.Error.data
    let (b, _) := rest.foldl (fun (acc : List Char × Nat) err =>
        let (b, k) := copy acc.1 acc.2 sep.data
        let bp := acc.2 + k
        let (b, k) := copy b bp err.Error.data
        (b, bp + k)) (b, bp)
    some (errorsNew (String.mk b))

/-- The function `answerToMap` (resource_record.go, lines 244-256). -/
def answerToMap {M : Type} (L : Lib M) (a : Answer M) : AnswerEntry :=
  let m : AnswerEntry := { answer := stringsJoin a.Rdata " ", region := none, meta := none }
  let m := if a.RegionName ≠ "" then { m with region := some a.RegionName } else m
  let m := match a.Meta with
    | some meta => { m with meta := some (L.StringMap meta) }
    | none => m
  m

/-- Body of the loop over `r.Filters` (resource_record.go, lines 197-205). -/
def filterToMap (f : Filter) : FilterEntry :=
  let m : FilterEntry := { filter := f.Typ, disabled := none, config := none }
  let m := if f.Disabled then { m with disabled := some true } else m
  let m := match f.Config with
    | some c => { m with config := some c }
    | none => m
  m

/-- The `regions` list built from the region map (resource_record.go, lines
222-234): keys collected, sorted, then one entry per key. -/
def regionsToList {M : Type} (L : Lib M) (regions : List (String × Region M)) :
    List RegionEntry :=
  let keys := regions.map Prod.fst
  let keys := sortStrings keys
  keys.map (fun k =>
    let region := mapGet regions k ⟨L.emptyMeta⟩
    { name := k, meta := some (L.StringMap region.Meta) })

/-- The function `recordToResourceData` (resource_record.go, lines 177-242).
Returns the state as written so far together with the returned error. -/
def recordToResourceData {M : Type} (L : Lib M) (d : ResourceData) (r : Record M) :
    ResourceData × Option GoError :=
  let d := { d with id := r.ID }
  let d := { d with domain := r.Domain }
  let d := { d with zone := r.Zone }
  let d := { d with type := r.Typ }
  let d := { d with ttl := r.TTL }
  let d := if r.Link ≠ "" then { d with link := r.Link } else d
  let d := match r.Meta with
    | some meta => { d with meta := L.structsMap meta }
    | none => d
  let d := match r.UseClientSubnet with
    | some b => { d with use_client_subnet := b }
    | none => d
  let d := if r.Filters.length > 0 then { d with filters := r.Filters.map filterToMap } else d
  let step (d : ResourceData) : ResourceData × Option GoError :=
    if r.Regions.length > 0 then
      let regions := regionsToList L r.Regions
      match L.setRegions regions with
      | some err =>
        (d, some (errorsNew
          ("[DEBUG] Error setting regions for: " ++ r.Domain ++ ", error: " ++ err)))
      | none => ({ d with regions := regions }, none)
    else (d, none)
  if r.Answers.length > 0 then
    let ans := r.Answers.map (answerToMap L)
    match L.setAnswers ans with
    | some err =>
      (d, some (errorsNew
        ("[DEBUG] Error setting answers for: " ++ r.Domain ++ ", error: " ++ err)))
    | none => step { d with answers := ans }
  else step d

/-- The answer built from one answer string (resource_record.go, lines
265-270 and 279-284). -/
def answerFromString {M : Type} (L : Lib M) (type : String) (v : String) : Answer M :=
  if type = "TXT" ∨ type = "SPF" then NewTXTAnswer L v
  else NewAnswer L (stringsSplit v ' ')

/-- What a call of `resourceDataToRecord` leaves behind: the record as mutated
and the returned error (`none` is nil). -/
abbrev Ret (M : Type) := Record M × Option GoError

/-- The statement `return errJoin(append([]error{errors.New(head)}, errs...), ",")`
inside `resourceDataToRecord`; an early `return` is the exception of `Except`. -/
def returnJoined {M : Type} (r : Record M) (head : String) (errs : List GoError) :
    Except (Ret M) (Record M) :=
  .error (r, errJoin (errorsNew head :: errs) ",")

/-- The loop over `answers` (resource_record.go, lines 274-301). -/
def answersLoop {M : Type} (L : Lib M) (type : String) :
    Record M → List AnswerEntry → Except (Ret M) (Record M)
  | r, [] => .ok r
  | r, answer :: rest =>
    let a : Answer M := answerFromString L type answer.answer
    let a := match answer.region with
      | some v => { a with RegionName := v }
      | none => a
    match answer.meta with
    | some v =>
      let a := { a with Meta := some (L.MetaFromMap v) }
      let errs := L.Validate (L.MetaFromMap v)
      if errs.length > 0 then returnJoined r "found error/s in answer metadata" errs
      else answersLoop L type (r.AddAnswer a) rest
    | none => answersLoop L type (r.AddAnswer a) rest

/-- Body of the loop over `filters` (resource_record.go, lines 330-342). -/
def filterFromMap (fi : FilterEntry) : Filter :=
  let config : StateMap := []
  let f : Filter := { Typ := fi.filter, Disabled := false, Config := some config }
  let f := match fi.disabled with
    | some disabled => { f with Disabled := disabled }
    | none => f
  let f := match fi.config with
    | some rawConfig => { f with Config := some rawConfig }
    | none => f
  f

/-- The loop over `regions` (resource_record.go, lines 347-365). -/
def regionsLoop {M : Type} (L : Lib M) :
    Record M → List RegionEntry → Except (Ret M) (Record M)
  | r, [] => .ok r
  | r, region :: rest =>
    let ns1R : Region M := { Meta := L.emptyMeta }
    match region.meta with
    | some v =>
      let ns1R : Region M := { ns1R with Meta := L.MetaFromMap v }
      let errs := L.Validate ns1R.Meta
      if errs.length > 0 then returnJoined r "found error/s in region/group metadata" errs
      else regionsLoop L { r with Regions := mapSet r.Regions region.name ns1R } rest
    | none => regionsLoop L { r with Regions := mapSet r.Regions region.name ns1R } rest

/-- Body of `resourceDataToRecord` (resource_record.go, lines 259-366), with an
early `return` as the exception: `x.bind fun r => rest` runs `rest` when the
step `x` did not return.  `d.GetOk(k)` holds when the value of `k` is not the
zero value of its type. -/
def resourceDataToRecordBody {M : Type} (L : Lib M) (r : Record M) (d : ResourceData) :
    Except (Ret M) (Record M) :=
  let r := { r with ID := d.id }
  let r :=
    if d.short_answers.length > 0 then
      d.short_answers.foldl (fun r answer => r.AddAnswer (answerFromString L d.type answer)) r
    else r
  (if d.answers.length > 0 then answersLoop L d.type r d.answers else Except.ok r).bind fun r =>
  let r := if d.ttl ≠ 0 then { r with TTL := d.ttl } else r
  (if d.link ≠ "" then
    if r.Answers.length > 0 then
      Except.error (r, some (errorsNew "cannot have both link and answers in a record"))
    else Except.ok (r.LinkTo d.link)
  else Except.ok r).bind fun r =>
  (if d.meta ≠ [] then
    let r := { r with Meta := some (L.MetaFromMap d.meta) }
    let errs := L.Validate (L.MetaFromMap d.meta)
    if errs.length > 0 then returnJoined r "found error/s in record metadata" errs
    else Except.ok r
  else Except.ok r).bind fun r =>
  let useClientSubnet := d.use_client_subnet
  let r := { r with UseClientSubnet := some useClientSubnet }
  let r := if d.filters.length > 0 then { r with Filters := d.filters.map filterFromMap } else r
  if d.regions.length > 0 then regionsLoop L r d.regions else Except.ok r

/-- The function `resourceDataToRecord` (resource_record.go, lines 258-368):
the record as mutated, and the returned error (`none` for the final
`return nil`). -/
def resourceDataToRecord {M : Type} (L : Lib M) (r : Record M) (d : ResourceData) :
    Record M × Option GoError :=
  match resourceDataToRecordBody L r d with
  | .ok r => (r, none)
  | .error ret => ret

/-! ## CRUD handlers -/

/-- A call made on the REST client, with its arguments. -/
inductive Call (M : Type) where
  | RecordsGet (zone domain t : String)
  | RecordsCreate (r : Record M)
  | RecordsUpdate (r : Record M)
  | RecordsDelete (zone domain t : String)
  | ZonesGet (zone : String)
deriving DecidableEq, Repr

/-- The library type `dns.ZoneSecondaryServer`. -/
structure ZoneSecondaryServer where
  NetworkIDs : List Int
  IP : String
  Port : Int
  Notify : Bool
deriving DecidableEq, Repr

/-- The library type `dns.ZonePrimary`. -/
structure ZonePrimary where
  Enabled : Bool
  Secondaries : List ZoneSecondaryServer
deriving DecidableEq, Repr

/-- The library type `dns.ZoneSecondary` (fields read by this code). -/
structure ZoneSecondary where
  Enabled : Bool
  PrimaryIP : String
  OtherIPs : List String
deriving DecidableEq, Repr

/-- The library type `dns.Zone` (fields read by this code); a nil pointer is
`none`. -/
structure Zone where
  ID : String
  Hostmaster : String
  TTL : Int
  NxTTL : Int
  Refresh : Int
  Retry : Int
  Expiry : Int
  NetworkIDs : List Int
  DNSServers : List String
  Link : Option String
  Primary : Option ZonePrimary
  Secondary : Option ZoneSecondary
deriving DecidableEq, Repr

/-- One element of the `secondaries` set of the data source: a resource with the
keys `ip`, `notify`, `port` and the set `network_ids`. -/
structure SecondaryEntry where
  ip : String
  notify : Bool
  port : Int
  network_ids : Finset Int
deriving DecidableEq

/-- The `schema.ResourceData` of the `ns1_zone` data source.  The `TypeSet`
fields `networks` and `secondaries` are finite sets (no order, no repetition);
`link` is `none` when the value has been removed by setting a nil pointer. -/
structure ZoneResourceData where
  id : String
  zone : String
  ttl : Int
  refresh : Int
  retry : Int
  expiry : Int
  nx_ttl : Int
  link : Option String
  primary : String
  additional_primaries : List String
  dns_servers : String
  hostmaster : String
  networks : Finset Int
  secondaries : Finset SecondaryEntry
deriving DecidableEq

/-- What the zone data source uses from the host runtime: the outcome of the
unchecked call `d.Set("secondaries", v)` on a slice of `dns.ZoneSecondaryServer`
structs.  `some s` is the set stored when the runtime accepts the value; `none`
is a refused value, which leaves the field as it was (the returned error is
dropped by the caller). -/
structure ZoneHost where
  setSecondaries : List ZoneSecondaryServer → Option (Finset SecondaryEntry)

/-- The REST client `*ns1.Client`, as the answers it gives: `Records.Get`,
`Records.Create`, `Records.Update` (on success the record as filled in from the
response), `Records.Delete` and `Zones.Get`. -/
structure Client (M : Type) where
  RecordsGet : String → String → String → Except GoError (Record M)
  RecordsCreate : Record M → Except GoError (Record M)
  RecordsUpdate : Record M → Except GoError (Record M)
  RecordsDelete : String → String → String → Option GoError
  ZonesGet : String → Except GoError Zone

/-- What a record handler leaves behind: the state, the returned error and the
client calls it made, in order. -/
structure Outcome (M : Type) where
  state : ResourceData
  err : Option GoError
  calls : List (Call M)

/-- What the zone handler leaves behind. -/
structure ZoneOutcome (M : Type) where
  state : ZoneResourceData
  err : Option GoError
  calls : List (Call M)

/-- The handler `RecordCreate` (resource_record.go, lines 371-381). -/
def RecordCreate {M : Type} (L : Lib M) (d : ResourceData) (client : Client M) : Outcome M :=
  let r := NewRecord L d.zone d.domain d.type
  match resourceDataToRecord L r d with
  | (_, some err) => { state := d, err := some err, calls := [] }
  | (r, none) =>
    match client.RecordsCreate r with
    | .error err => { state := d, err := some err, calls := [Call.RecordsCreate r] }
    | .ok r' =>
      let res := recordToResourceData L d r'
      { state := res.1, err := res.2, calls := [Call.RecordsCreate r] }

/-- The handler `RecordRead` (resource_record.go, lines 384-393). -/
def RecordRead {M : Type} (L : Lib M) (d : ResourceData) (client : Client M) : Outcome M :=
  match client.RecordsGet d.zone d.domain d.type with
  | .error err =>
    { state := d, err := some err, calls := [Call.RecordsGet d.zone d.domain d.type] }
  | .ok r =>
    let res := recordToResourceData L d r
    { state := res.1, err := res.2, calls := [Call.RecordsGet d.zone d.domain d.type] }

/-- The handler `RecordDelete` (resource_record.go, lines 396-401). -/
def RecordDelete {M : Type} (d : ResourceData) (client : Client M) : Outcome M :=
  let err := client.RecordsDelete d.zone d.domain d.type
  let d' := { d with id := "" }
  { state := d', err := err, calls := [Call.RecordsDelete d.zone d.domain d.type] }

/-- The handler `RecordUpdate` (resource_record.go, lines 404-414). -/
def RecordUpdate {M : Type} (L : Lib M) (d : ResourceData) (client : Client M) : Outcome M :=
  let r := NewRecord L d.zone d.domain d.type
  match resourceDataToRecord L r d with
  | (_, some err) => { state := d, err := some err, calls := [] }
  | (r, none) =>
    match client.RecordsUpdate r with
    | .error err => { state := d, err := some err, calls := [Call.RecordsUpdate r] }
    | .ok r' =>
      let res := recordToResourceData L d r'
      { state := res.1, err := res.2, calls := [Call.RecordsUpdate r] }

/-! ## Zone data source -/

/-- The function `dataSourceZoneToResourceData` (data_source_zone.go, lines
98-116).  `d.Set("networks", z.NetworkIDs)` stores the slice of ints as a set;
`d.Set("secondaries", ...)` stores what the host runtime makes of the structs,
or nothing when it refuses them. -/
def dataSourceZoneToResourceData (H : ZoneHost) (d : ZoneResourceData) (z : Zone) :
    ZoneResourceData :=
  let d := { d with id := z.ID }
  let d := { d with hostmaster := z.Hostmaster }
  let d := { d with ttl := z.TTL }
  let d := { d with nx_ttl := z.NxTTL }
  let d := { d with refresh := z.Refresh }
  let d := { d with retry := z.Retry }
  let d := { d with expiry := z.Expiry }
  let d := { d with networks := z.NetworkIDs.toFinset }
  let d := { d with dns_servers := stringsJoin z.DNSServers "," }
  let d := { d with link := z.Link }
  let d := match z.Secondary with
    | some sec =>
      if sec.Enabled then
        let d := { d with primary := sec.PrimaryIP }
        { d with additional_primaries := sec.OtherIPs }
      else d
    | none => d
  let d := match z.Primary with
    | some pri =>
      if pri.Enabled then
        match H.setSecondaries pri.Secondaries with
        | some stored => { d with secondaries := stored }
        | none => d
      else d
    | none => d
  d

/-- The handler `dataSourceZoneRead` (data_source_zone.go, lines 118-126). -/
def dataSourceZoneRead {M : Type} (H : ZoneHost) (d : ZoneResourceData) (client : Client M) :
    ZoneOutcome M :=
  match client.ZonesGet d.zone with
  | .error err => { state := d, err := some err, calls := [Call.ZonesGet d.zone] }
  | .ok z =>
    { state := dataSourceZoneToResourceData H d z, err := none,
      calls := [Call.ZonesGet d.zone] }

/-! ## Import handler -/

/-- The importer `recordStateFunc` (resource_record.go, lines 416-427). -/
def recordStateFunc (d : ResourceData) : Except GoError (List ResourceData) :=
  let parts := stringsSplit d.id '/'
  if parts.length ≠ 3 then
    .error (errorsNew
      ("invalid record specifier.  Expecting 2 slashes (\"zone/domain/type\"), got "
        ++ toString (parts.length - 1)))
  else
    let d := { d with zone := parts.getD 0 "" }
    let d := { d with domain := parts.getD 1 "" }
    let d := { d with type := parts.getD 2 "" }
    .ok [d]

/-- A state holding only an ID, as handed to the importer. -/
def importState (id : String) : ResourceData :=
  { id := id, zone := "", domain := "", type := "", ttl := 0, meta := [], link := "",
    use_client_subnet := true, short_answers := [], answers := [], regions := [],
    filters := [] }

/-- The bytes that the loop of `errJoin` appends for the errors `rest`. -/
def joinTail (sep : List Char) (rest : List GoError) : List Char :=
  (rest.map (fun e => sep ++ e.Error.data)).flatten

/-! ## Summaries of the loops of `resourceDataToRecord` -/

/-- The answer that one pass of the `answers` loop builds for `answer`
(resource_record.go, lines 275-293). -/
def answerOfEntry {M : Type} (L : Lib M) (type : String) (answer : AnswerEntry) : Answer M :=
  let a : Answer M := answerFromString L type answer.answer
  let a := match answer.region with
    | some v => { a with RegionName := v }
    | none => a
  match answer.meta with
  | some v => { a with Meta := some (L.MetaFromMap v) }
  | none => a

/-- The errors that `Validate` reports for the `meta` key of a list element,
none when the key is absent. -/
def entryErrors {M : Type} (L : Lib M) (meta : Option StateMap) : List GoError :=
  match meta with
  | some v => L.Validate (L.MetaFromMap v)
  | none => []

/-- The region that one pass of the `regions` loop stores for `region`
(resource_record.go, lines 349-358). -/
def regionOfEntry {M : Type} (L : Lib M) (region : RegionEntry) : Region M :=
  match region.meta with
  | some v => { Meta := L.MetaFromMap v }
  | none => { Meta := L.emptyMeta }

/-- The answers that the two answer loops of `resourceDataToRecord` add, in
order: one per `short_answers` element, then one per `answers` element. -/
def builtAnswers {M : Type} (L : Lib M) (d : ResourceData) : List (Answer M) :=
  d.short_answers.map (answerFromString L d.type) ++ d.answers.map (answerOfEntry L d.type)

/-- The conditions under which `resourceDataToRecord` reaches its final
`return nil`. -/
def conversionOk {M : Type} (L : Lib M) (r : Record M) (d : ResourceData) : Prop :=
  (∀ a ∈ d.answers, entryErrors L a.meta = []) ∧
  (d.link ≠ "" → r.Answers ++ builtAnswers L d = []) ∧
  (d.meta ≠ [] → L.Validate (L.MetaFromMap d.meta) = []) ∧
  (∀ g ∈ d.regions, entryErrors L g.meta = [])

/-- The record that `resourceDataToRecord` leaves when it returns nil. -/
def convertedRecord {M : Type} (L : Lib M) (r : Record M) (d : ResourceData) : Record M :=
  { Meta := if d.meta ≠ [] then some (L.MetaFromMap d.meta)
            else if d.link ≠ "" then none else r.Meta,
    ID := d.id,
    Zone := r.Zone,
    Domain := r.Domain,
    Typ := r.Typ,
    Link := if d.link ≠ "" then d.link else r.Link,
    TTL := if d.ttl ≠ 0 then d.ttl else r.TTL,
    UseClientSubnet := some d.use_client_subnet,
    Answers := if d.link ≠ "" then [] else r.Answers ++ builtAnswers L d,
    Filters := if d.filters.length > 0 then d.filters.map filterFromMap else r.Filters,
    Regions := List.foldl (fun m g => mapSet m g.name (regionOfEntry L g)) r.Regions d.regions }

/-- The record after the ID assignment and the `short_answers` loop
(resource_record.go, lines 259-272). -/
def afterShort {M : Type} (L : Lib M) (d : ResourceData) (r : Record M) : Record M :=
  { r with ID := d.id, Answers := r.Answers ++ d.short_answers.map (answerFromString L d.type) }

/-- The `link` step of `resourceDataToRecord` (resource_record.go, lines
308-313). -/
def linkStep {M : Type} (d : ResourceData) (r : Record M) : Except (Ret M) (Record M) :=
  if d.link ≠ "" then
    if r.Answers.length > 0 then
      .error (r, some (errorsNew "cannot have both link and answers in a record"))
    else .ok (r.LinkTo d.link)
  else .ok r

/-- The record `meta` step of `resourceDataToRecord` (resource_record.go, lines
315-323). -/
def metaStep {M : Type} (L : Lib M) (d : ResourceData) (r : Record M) :
    Except (Ret M) (Record M) :=
  if d.meta ≠ [] then
    let r := { r with Meta := some (L.MetaFromMap d.meta) }
    let errs := L.Validate (L.MetaFromMap d.meta)
    if errs.length > 0 then returnJoined r "found error/s in record metadata" errs
    else .ok r
  else .ok r

/-- The steps of `resourceDataToRecord` after the record `meta` step
(resource_record.go, lines 324-367). -/
def tailSteps {M : Type} (L : Lib M) (d : ResourceData) (r : Record M) :
    Except (Ret M) (Record M) :=
  let useClientSubnet := d.use_client_subnet
  let r := { r with UseClientSubnet := some useClientSubnet }
  let r := if d.filters.length > 0 then { r with Filters := d.filters.map filterFromMap } else r
  if d.regions.length > 0 then regionsLoop L r d.regions else .ok r

/-- The steps of `resourceDataToRecord` after the `answers` loop
(resource_record.go, lines 305-367). -/
def afterAnswers {M : Type} (L : Lib M) (d : ResourceData) (r : Record M) :
    Except (Ret M) (Record M) :=
  let r := if d.ttl ≠ 0 then { r with TTL := d.ttl } else r
  (linkStep d r).bind (fun r => (metaStep L d r).bind (tailSteps L d))

/-! ## A concrete library instance and concrete states -/

/-- A small stand-in for the client library, to evaluate the converters on
concrete inputs: metadata is kept as the state map, `Validate` reports every
key whose value is the empty string, `d.Set` accepts every list and
`dns.NewRecord` keeps the domain. -/
def exampleLib : Lib StateMap :=
  { emptyMeta := [],
    MetaFromMap := fun m => m,
    StringMap := fun m => m,
    structsMap := fun m => m,
    Validate := fun m =>
      (m.filter (fun kv => kv.2 = "")).map (fun kv => errorsNew ("invalid value for " ++ kv.1)),
    qualify := fun _ domain => domain,
    setAnswers := fun _ => none,
    setRegions := fun _ => none }

/-- A state with only the identity triplet set and `use_client_subnet` at its
schema default. -/
def baseState (zone domain type : String) : ResourceData :=
  { id := "", zone := zone, domain := domain, type := type, ttl := 0, meta := [], link := "",
    use_client_subnet := true, short_answers := [], answers := [], regions := [],
    filters := [] }

/-- A state with a link and one answer whose metadata is valid. -/
def linkedState : ResourceData :=
  { baseState "example.io" "www.example.io" "A" with
    link := "target.example.io",
    answers := [{ answer := "1.2.3.4", region := none, meta := some [("weight", "5")] }] }

/-- A state with a link and one answer whose metadata fails validation. -/
def linkedInvalidState : ResourceData :=
  { baseState "example.io" "www.example.io" "A" with
    link := "target.example.io",
    answers := [{ answer := "1.2.3.4", region := none, meta := some [("weight", "")] }] }

/-- A state in which two answers and the record itself carry metadata that
fails validation. -/
def twoInvalidState : ResourceData :=
  { baseState "example.io" "www.example.io" "A" with
    meta := [("up", "")],
    answers := [{ answer := "1.2.3.4", region := none, meta := some [("weight", "")] },
                { answer := "5.6.7.8", region := none, meta := some [("priority", "")] }] }

/-- The state of the SPF acceptance test (resource_record_test.go, lines 459-476). -/
def spfState : ResourceData :=
  { baseState "example.io" "example.io" "SPF" with
    ttl := 86400,
    use_client_subnet := true,
    answers := [{ answer := "v=DKIM1; k=rsa; p=XXXXXXXX", region := none, meta := none }] }

/-- The state of the SRV acceptance test (resource_record_test.go, lines 478-495). -/
def srvState : ResourceData :=
  { baseState "example.io" "_some-server._tcp.example.io" "SRV" with
    ttl := 86400,
    use_client_subnet := true,
    answers := [{ answer := "10 0 2380 node-1.example.io", region := none, meta := none }] }

/-- The rdata that `resourceDataToRecord` gives an answer string `v` of a record
of type `type`. -/
def rdataOf (type : String) (v : String) : List String :=
  if type = "TXT" ∨ type = "SPF" then [v] else stringsSplit v ' '

/-- The state that `recordToResourceData` leaves when every `d.Set` succeeds. -/
def writtenState {M : Type} (L : Lib M) (d : ResourceData) (r : Record M) : ResourceData :=
  { id := r.ID,
    zone := r.Zone,
    domain := r.Domain,
    type := r.Typ,
    ttl := r.TTL,
    meta := (match r.Meta with
      | some meta => L.structsMap meta
      | none => d.meta),
    link := if r.Link ≠ "" then r.Link else d.link,
    use_client_subnet := (match r.UseClientSubnet with
      | some b => b
      | none => d.use_client_subnet),
    short_answers := d.short_answers,
    answers := if r.Answers.length > 0 then r.Answers.map (answerToMap L) else d.answers,
    regions := if r.Regions.length > 0 then regionsToList L r.Regions else d.regions,
    filters := if r.Filters.length > 0 then r.Filters.map filterToMap else d.filters }

/-- Every `d.Set` with a checked result in `recordToResourceData` succeeds for `r`. -/
def setsAccepted {M : Type} (L : Lib M) (r : Record M) : Prop :=
  (r.Answers.length > 0 → L.setAnswers (r.Answers.map (answerToMap L)) = none) ∧
  (r.Regions.length > 0 → L.setRegions (regionsToList L r.Regions) = none)

/-- The state after the unchecked `d.Set` calls of `recordToResourceData`
(resource_record.go, lines 178-208). -/
def scalarsWritten {M : Type} (L : Lib M) (d : ResourceData) (r : Record M) : ResourceData :=
  { id := r.ID,
    zone := r.Zone,
    domain := r.Domain,
    type := r.Typ,
    ttl := r.TTL,
    meta := (match r.Meta with
      | some meta => L.structsMap meta
      | none => d.meta),
    link := if r.Link ≠ "" then r.Link else d.link,
    use_client_subnet := (match r.UseClientSubnet with
      | some b => b
      | none => d.use_client_subnet),
    short_answers := d.short_answers,
    answers := d.answers,
    regions := d.regions,
    filters := if r.Filters.length > 0 then r.Filters.map filterToMap else d.filters }

/-- The `regions` step of `recordToResourceData` (resource_record.go, lines
221-241). -/
def writeRegions {M : Type} (L : Lib M) (r : Record M) (d : ResourceData) :
    ResourceData × Option GoError :=
  if r.Regions.length > 0 then
    let regions := regionsToList L r.Regions
    match L.setRegions regions with
    | some err =>
      (d, some (errorsNew
        ("[DEBUG] Error setting regions for: " ++ r.Domain ++ ", error: " ++ err)))
    | none => ({ d with regions := regions }, none)
  else (d, none)

/-- The `answers` and `regions` steps of `recordToResourceData`
(resource_record.go, lines 209-241). -/
def writeLists {M : Type} (L : Lib M) (r : Record M) (d : ResourceData) :
    ResourceData × Option GoError :=
  if r.Answers.length > 0 then
    let ans := r.Answers.map (answerToMap L)
    match L.setAnswers ans with
    | some err =>
      (d, some (errorsNew
        ("[DEBUG] Error setting answers for: " ++ r.Domain ++ ", error: " ++ err)))
    | none => writeRegions L r { d with answers := ans }
  else writeRegions L r d

/-- A REST client whose every call returns the error `e`. -/
def failingClient (M : Type) (e : GoError) : Client M :=
  { RecordsGet := fun _ _ _ => .error e,
    RecordsCreate := fun _ => .error e,
    RecordsUpdate := fun _ => .error e,
    RecordsDelete := fun _ _ _ => some e,
    ZonesGet := fun _ => .error e }

/-- A zone data-source state with only the `zone` argument set. -/
def baseZoneState (zone : String) : ZoneResourceData :=
  { id := "", zone := zone, ttl := 0, refresh := 0, retry := 0, expiry := 0, nx_ttl := 0,
    link := none, primary := "", additional_primaries := [], dns_servers := "",
    hostmaster := "", networks := ∅, secondaries := ∅ }

/-- A host runtime that refuses a non-empty slice of `dns.ZoneSecondaryServer`
structs (they are not maps keyed by the schema of the set) and stores the empty
set for an empty slice. -/
def exampleHost : ZoneHost :=
  { setSecondaries := fun v => if v = [] then some ∅ else none }

/-- The filter chain of the basic acceptance test (resource_record_test.go,
lines 363-374). -/
def basicFilters : List FilterEntry :=
  [{ filter := "up", disabled := none, config := none },
   { filter := "geotarget_country", disabled := none, config := none },
   { filter := "select_first_n", disabled := none, config := some [("N", "1")] }]

/-- The state of the basic acceptance test (resource_record_test.go, lines
331-380). -/
def basicState : ResourceData :=
  { baseState "example.io" "test.example.io" "CNAME" with
    ttl := 60,
    answers := [{ answer := "test1.example.io", region := some "cal", meta := none }],
    regions := [{ name := "cal", meta := none }],
    filters := basicFilters }

/-- A record as the API returns it for the updated acceptance test
(resource_record_test.go, lines 383-435), its region map met in the order
`wa`, `ny`. -/
def updatedRecord : Record StateMap :=
  { Meta := none, ID := "5a1b", Zone := "example.io", Domain := "test.example.io",
    Typ := "CNAME", Link := "", TTL := 120, UseClientSubnet := some false,
    Answers := [{ Meta := none, Rdata := ["test2.example.io"], RegionName := "ny" }],
    Filters := [{ Typ := "up", Disabled := false, Config := some [] },
                { Typ := "geotarget_country", Disabled := false, Config := some [] }],
    Regions := [("wa", { Meta := [] }), ("ny", { Meta := [] })] }

/-! ## Round trip: conditions and comparison -/

/-- Rdata that is unchanged by `strings.Join(rdata, " ")` followed by the
conversion of the joined string in `resourceDataToRecord`: a single token for
TXT and SPF; otherwise at least one token, none containing a space. -/
def rdataStable (type : String) (rdata : List String) : Prop :=
  if type = "TXT" ∨ type = "SPF" then rdata.length = 1
  else rdata ≠ [] ∧ ∀ tok ∈ rdata, ' ' ∉ tok.data

/-- A state in which no list, link or metadata has been set. -/
def freshState (d : ResourceData) : Prop :=
  d.short_answers = [] ∧ d.answers = [] ∧ d.regions = [] ∧ d.filters = [] ∧
    d.link = "" ∧ d.meta = []

/-- The `meta` map that `recordToResourceData` leaves in a state whose `meta`
was empty: `structs.Map(r.Meta)` when `r.Meta` is not nil. -/
def recordMetaMap {M : Type} (L : Lib M) (r : Record M) : StateMap :=
  match r.Meta with
  | some meta => L.structsMap meta
  | none => []

/-- The records for which the state written by `recordToResourceData` converts
back: not both a link and answers, a use-client-subnet flag that is set, rdata
that survives joining, a region map with distinct keys, and metadata that
passes validation once read back from the state. -/
def roundTrippable {M : Type} (L : Lib M) (r : Record M) : Prop :=
  ¬ (r.Link ≠ "" ∧ r.Answers ≠ []) ∧
  r.UseClientSubnet ≠ none ∧
  (∀ a ∈ r.Answers, rdataStable r.Typ a.Rdata) ∧
  (r.Regions.map Prod.fst).Nodup ∧
  (∀ a ∈ r.Answers, entryErrors L (a.Meta.map L.StringMap) = []) ∧
  (recordMetaMap L r ≠ [] → L.Validate (L.MetaFromMap (recordMetaMap L r)) = []) ∧
  (∀ p ∈ r.Regions, L.Validate (L.MetaFromMap (L.StringMap p.2.Meta)) = [])

/-- What the round trip compares of an answer: rdata tokens and region name. -/
def answerView {M : Type} (a : Answer M) : List String × String := (a.Rdata, a.RegionName)

/-- What the round trip compares of a filter: type, disabled flag and config,
a nil config map read as the empty map. -/
def filterView (f : Filter) : String × Bool × StateMap := (f.Typ, f.Disabled, f.Config.getD [])

/-- A linked record that also carries an answer. -/
def linkedRecord : Record StateMap :=
  { Meta := none, ID := "5a1c", Zone := "example.io", Domain := "www.example.io",
    Typ := "A", Link := "target.example.io", TTL := 60, UseClientSubnet := some true,
    Answers := [{ Meta := none, Rdata := ["1.2.3.4"], RegionName := "" }],
    Filters := [], Regions := [] }

/-- A TXT record whose answer has two rdata tokens. -/
def twoTokenTxtRecord : Record StateMap :=
  { Meta := none, ID := "5a1d", Zone := "example.io", Domain := "example.io",
    Typ := "TXT", Link := "", TTL := 60, UseClientSubnet := some true,
    Answers := [{ Meta := none, Rdata := ["v=spf1", "-all"], RegionName := "" }],
    Filters := [], Regions := [] }

/-- A record as the API returns it for the basic acceptance test
(resource_record_test.go, lines 331-380). -/
def basicRecord : Record StateMap :=
  { Meta := none, ID := "5a1a", Zone := "example.io", Domain := "test.example.io",
    Typ := "CNAME", Link := "", TTL := 60, UseClientSubnet := some true,
    Answers := [{ Meta := none, Rdata := ["test1.example.io"], RegionName := "cal" }],
    Filters := [{ Typ := "up", Disabled := false, Config := none },
                { Typ := "geotarget_country", Disabled := false, Config := some [] },
                { Typ := "select_first_n", Disabled := true, Config := some [("N", "1")] }],
    Regions := [("cal", { Meta := [] })] }

/-- A REST client whose every call succeeds and returns the record or the zone
it was given or asked for. -/
def echoClient (M : Type) (r0 : Record M) (z0 : Zone) : Client M :=
  { RecordsGet := fun _ _ _ => .ok r0,
    RecordsCreate := fun r => .ok r,
    RecordsUpdate := fun r => .ok r,
    RecordsDelete := fun _ _ _ => none,
    ZonesGet := fun _ => .ok z0 }

/-- A zone that is a secondary of another server and not a primary. -/
def secondaryZone : Zone :=
  { ID := "5b2a", Hostmaster := "hostmaster@example.io", TTL := 3600, NxTTL := 3600,
    Refresh := 43200, Retry := 7200, Expiry := 1209600, NetworkIDs := [0],
    DNSServers := ["dns1.p01.nsone.net", "dns2.p01.nsone.net"], Link := none,
    Primary := some { Enabled := false,
                      Secondaries := [{ NetworkIDs := [0], IP := "9.9.9.9", Port := 53,
                                        Notify := true }] },
    Secondary := some { Enabled := true, PrimaryIP := "1.1.1.1", OtherIPs := ["2.2.2.2"] } }

/-- The general path of `errJoin` (resource_record.go, lines 163-174) for the
errors `e0 :: rest`: the pre-computed length `n`, the buffer `b` after all the
copies, and the write position `bp` reached. -/
def errJoinBuffer (e0 : GoError) (rest : List GoError) (sep : String) :
    Nat × List Char × Nat :=
  let n := sep.length * ((e0 :: rest).length - 1)
  let n := (e0 :: rest).foldl (fun n e => n + e.Error.length) n
  let b := List.replicate n (Char.ofNat 0)
  let (b, bp) := copy b 0 e0.Error.data
  let (b, bp) := rest.foldl (fun (acc : List Char × Nat) err =>
      let (b, k) := copy acc.1 acc.2 sep.data
      let bp := acc.2 + k
      let (b, k) := copy b bp err.Error.data
      (b, bp + k)) (b, bp)
  (n, b, bp)

/-- The messages `msgs` concatenated in order with `sep` between each
consecutive pair (the joined message, as the specification words it). -/
def concatWithSep (sep : String) : List String → String
  | [] => ""
  | [x] => x
  | x :: y :: rest => x ++ sep ++ concatWithSep sep (y :: rest)

/-- The conditions under which `resourceDataToRecord` gets as far as its
`filters` step (resource_record.go, line 327): no return from the `answers`
loop, from the link guard or from the record metadata check. -/
def reachesFilters {M : Type} (L : Lib M) (r : Record M) (d : ResourceData) : Prop :=
  (∀ a ∈ d.answers, entryErrors L a.meta = []) ∧
  (d.link ≠ "" → r.Answers ++ builtAnswers L d = []) ∧
  (d.meta ≠ [] → L.Validate (L.MetaFromMap d.meta) = [])

/-- The state of the basic acceptance test with a link added. -/
def linkedFiltersState : ResourceData :=
  { basicState with link := "target.example.io" }

/-- The state of the basic acceptance test with answer metadata that fails
validation. -/
def invalidAnswerFiltersState : ResourceData :=
  { basicState with
    answers := [{ answer := "test1.example.io", region := some "cal",
                  meta := some [("weight", "")] }] }

/-- The state of the basic acceptance test with region metadata that fails
validation. -/
def invalidRegionFiltersState : ResourceData :=
  { basicState with regions := [{ name := "cal", meta := some [("up", "")] }] }

/-- A zone that is a primary with one secondary server, is not a secondary, and
whose network list repeats an ID. -/
def primaryZone : Zone :=
  { ID := "5b2b", Hostmaster := "hostmaster@example.io", TTL := 3600, NxTTL := 3600,
    Refresh := 43200, Retry := 7200, Expiry := 1209600, NetworkIDs := [1, 0, 1],
    DNSServers := ["dns1.p01.nsone.net", "dns2.p01.nsone.net"], Link := none,
    Primary := some { Enabled := true,
                      Secondaries := [{ NetworkIDs := [0], IP := "9.9.9.9", Port := 53,
                                        Notify := true }] },
    Secondary := none }

/-- A zone that is an enabled primary without secondary servers. -/
def primaryAloneZone : Zone :=
  { primaryZone with Primary := some { Enabled := true, Secondaries := [] } }

/-- A zone data-source state that already holds one secondary. -/
def priorZoneState : ZoneResourceData :=
  { baseZoneState "example.io" with
    secondaries := {{ ip := "8.8.8.8", notify := false, port := 53, network_ids := {0} }} }

/-! ## Helper lemmas -/

theorem splitOn_length_eq_count (c : Char) (l : List Char) :
    (l.splitOn c).length = l.count c + 1 := by
  induction l with
  | nil => simp
  | cons x xs ih =>
    simp only [List.splitOn] at ih ⊢
    rw [List.splitOnP_cons]
    by_cases h : x = c
    · subst h
      simp [ih]
    · have hne : (x == c) = false := by simpa using h
      simp [hne, ih, List.count_cons, h]

theorem stringsSplit_length (s : String) (c : Char) :
    (stringsSplit s c).length = countByte s c + 1 := by
  simp [stringsSplit, countByte, splitOn_length_eq_count]

theorem containsStr_iff (s sub : String) :
    containsStr s sub = true ↔ sub.data <:+: s.data := by
  simp only [containsStr, List.any_eq_true, List.mem_tails, List.isPrefixOf_iff_prefix]
  rw [List.infix_iff_prefix_suffix]
  constructor
  · rintro ⟨t, h1, h2⟩
    exact ⟨t, h2, h1⟩
  · rintro ⟨t, h1, h2⟩
    exact ⟨t, h2, h1⟩

theorem containsStr_append_left (p q sub : String) (h : containsStr p sub = true) :
    containsStr (p ++ q) sub = true := by
  rw [containsStr_iff] at h ⊢
  rw [String.data_append]
  exact List.IsInfix.trans h (List.infix_append' [] p.data q.data)

theorem getD_map_mk (l : List (List Char)) (n : Nat) :
    (l.map String.mk).getD n "" = String.mk (l.getD n []) := by
  induction l generalizing n with
  | nil => rfl
  | cons x xs ih =>
    cases n with
    | zero => rfl
    | succ k => simp [ih k]

theorem splitOn_three (c : Char) (a b e : List Char)
    (ha : c ∉ a) (hb : c ∉ b) (he : c ∉ e) :
    (a ++ c :: (b ++ c :: e)).splitOn c = [a, b, e] := by
  have h := List.splitOn_intercalate [a, b, e] c
    (by
      intro l hl
      simp only [List.mem_cons, List.mem_singleton, List.not_mem_nil, or_false] at hl
      rcases hl with rfl | rfl | rfl <;> assumption)
    (by simp)
  simpa [List.intercalate, List.intersperse, List.flatten] using h

/-! ## `errJoin`: the byte buffer holds the joined messages -/

theorem copy_into_zeros (w src : List Char) (m : Nat) (z : Char) (h : src.length ≤ m) :
    copy (w ++ List.replicate m z) w.length src =
      (w ++ src ++ List.replicate (m - src.length) z, src.length) := by
  have hk : min ((w ++ List.replicate m z).length - w.length) src.length = src.length := by
    simp [h]
  have hdrop : List.drop (w.length + src.length) (w ++ List.replicate m z) =
      List.replicate (m - src.length) z := by
    rw [List.drop_append_eq_append_drop]
    have h1 : List.drop (w.length + src.length) w = [] := by
      apply List.drop_eq_nil_of_le
      omega
    rw [h1]
    simp
  unfold copy
  simp only [hk, List.take_left', List.take_length, hdrop]

theorem errJoin_loop (sep : List Char) (z : Char) (rest : List GoError) :
    ∀ (w : List Char) (m : Nat), (joinTail sep rest).length ≤ m →
      (rest.foldl (fun (acc : List Char × Nat) err =>
          let (b, k) := copy acc.1 acc.2 sep
          let bp := acc.2 + k
          let (b, k) := copy b bp err.Error.data
          (b, bp + k)) (w ++ List.replicate m z, w.length)) =
        (w ++ joinTail sep rest ++ List.replicate (m - (joinTail sep rest).length) z,
          w.length + (joinTail sep rest).length) := by
  induction rest with
  | nil => intro w m _; simp [joinTail]
  | cons e es ih =>
    intro w m hm
    have hlen : (joinTail sep (e :: es)).length =
        sep.length + e.Error.data.length + (joinTail sep es).length := by
      simp [joinTail, Nat.add_assoc]
    rw [hlen] at hm
    rw [List.foldl_cons]
    have h1 := copy_into_zeros w sep m z (by omega)
    have h2 := copy_into_zeros (w ++ sep) e.Error.data (m - sep.length) z (by omega)
    simp only [h1]
    simp only [List.length_append] at h2
    simp only [h2]
    have h3 := ih (w ++ sep ++ e.Error.data) (m - sep.length - e.Error.data.length) (by omega)
    simp only [List.length_append] at h3
    rw [h3]
    have hj : joinTail sep (e :: es) = sep ++ e.Error.data ++ joinTail sep es := by
      simp [joinTail]
    rw [hj]
    simp only [List.length_append, List.append_assoc, Prod.mk.injEq]
    constructor
    · have hm' : m - sep.length - e.Error.data.length - (joinTail sep es).length =
          m - (sep.length + (e.Error.data.length + (joinTail sep es).length)) := by omega
      rw [hm']
    · omega

theorem intercalate_cons_eq (sep x : List Char) (xs : List (List Char)) :
    sep.intercalate (x :: xs) = x ++ (xs.map (fun y => sep ++ y)).flatten := by
  induction xs generalizing x with
  | nil => simp [List.intercalate]
  | cons y ys ih =>
    have h := ih y
    simp only [List.intercalate, List.intersperse, List.flatten_cons, List.map_cons] at h ⊢
    rw [h, List.append_assoc]

theorem foldl_length_eq (l : List GoError) (a : Nat) :
    l.foldl (fun n e => n + e.Error.length) a = a + (l.map (fun e => e.Error.data.length)).sum := by
  induction l generalizing a with
  | nil => simp
  | cons e es ih =>
    rw [List.foldl_cons, ih]
    simp only [List.map_cons, List.sum_cons]
    show a + e.Error.data.length + _ = _
    omega

theorem joinTail_length_eq (sep : List Char) (l : List GoError) :
    (joinTail sep l).length = sep.length * l.length + (l.map (fun e => e.Error.data.length)).sum := by
  induction l with
  | nil => simp [joinTail]
  | cons e es ih =>
    have hj : joinTail sep (e :: es) = sep ++ e.Error.data ++ joinTail sep es := by
      simp [joinTail]
    rw [hj]
    simp only [List.length_append, ih, List.length_cons, List.map_cons, List.sum_cons,
      Nat.mul_add, Nat.mul_one]
    omega

theorem errJoin_buffer_size (sep : String) (e : GoError) (rest : List GoError) :
    (e :: rest).foldl (fun n x => n + x.Error.length) (sep.length * ((e :: rest).length - 1)) =
      e.Error.data.length + (joinTail sep.data rest).length := by
  rw [foldl_length_eq, joinTail_length_eq]
  simp only [List.length_cons, Nat.add_sub_cancel, List.map_cons, List.sum_cons]
  show sep.data.length * rest.length + _ = _
  omega

theorem errJoin_general (sep : String) (e0 : GoError) (rest : List GoError) :
    (let n := sep.length * ((e0 :: rest).length - 1)
     let n := (e0 :: rest).foldl (fun n e => n + e.Error.length) n
     let b := List.replicate n (Char.ofNat 0)
     let (b, bp) := copy b 0 e0.Error.data
     let (b, _) := rest.foldl (fun (acc : List Char × Nat) err =>
        let (b, k) := copy acc.1 acc.2 sep.data
        let bp := acc.2 + k
        let (b, k) := copy b bp err.Error.data
        (b, bp + k)) (b, bp)
     some (errorsNew (String.mk b))) =
    some (errorsNew (String.mk (e0.Error.data ++ joinTail sep.data rest))) := by
  simp only [errJoin_buffer_size]
  have h0 := copy_into_zeros [] e0.Error.data
    (e0.Error.data.length + (joinTail sep.data rest).length) (Char.ofNat 0) (by omega)
  simp only [List.nil_append, List.length_nil] at h0
  simp only [h0]
  have h1 := errJoin_loop sep.data (Char.ofNat 0) rest e0.Error.data
    (e0.Error.data.length + (joinTail sep.data rest).length - e0.Error.data.length) (by omega)
  simp only [h1]
  simp

/-- The message of `errJoin` on a non-empty list is the messages joined with
`sep`; the result is never nil. -/
theorem errJoin_message (e0 : GoError) (rest : List GoError) (sep : String) :
    ∃ j, errJoin (e0 :: rest) sep = some j ∧
      j.Error = stringsJoin ((e0 :: rest).map GoError.Error) sep := by
  have hjoin : stringsJoin ((e0 :: rest).map GoError.Error) sep =
      String.mk (e0.Error.data ++ joinTail sep.data rest) := by
    simp only [stringsJoin, List.map_cons, intercalate_cons_eq, joinTail, List.map_map]
    rfl
  rw [hjoin]
  rcases rest with _ | ⟨e1, _ | ⟨e2, _ | ⟨e3, rest⟩⟩⟩
  · exact ⟨e0, rfl, by simp [joinTail]⟩
  · refine ⟨_, rfl, ?_⟩
    apply String.ext
    simp [errorsNew, joinTail, String.data_append]
  · refine ⟨_, rfl, ?_⟩
    apply String.ext
    simp [errorsNew, joinTail, String.data_append]
  · refine ⟨_, ?_, rfl⟩
    have h := errJoin_general sep e0 (e1 :: e2 :: e3 :: rest)
    rw [errJoin]
    · exact h
    all_goals simp

/-! ## The loops of `resourceDataToRecord` -/

theorem errJoin_cons_ne_none (e0 : GoError) (rest : List GoError) (sep : String) :
    errJoin (e0 :: rest) sep ≠ none := by
  obtain ⟨j, hj, _⟩ := errJoin_message e0 rest sep
  simp [hj]

theorem answersLoop_valid {M : Type} (L : Lib M) (type : String) (as : List AnswerEntry) :
    ∀ r : Record M, (∀ a ∈ as, entryErrors L a.meta = []) →
      answersLoop L type r as =
        .ok { r with Answers := r.Answers ++ as.map (answerOfEntry L type) } := by
  induction as with
  | nil => intro r _; simp [answersLoop]
  | cons a rest ih =>
    intro r h
    have ha := h a (List.mem_cons_self _ _)
    have hrest : ∀ x ∈ rest, entryErrors L x.meta = [] :=
      fun x hx => h x (List.mem_cons_of_mem _ hx)
    cases hm : a.meta with
    | none =>
      simp only [answersLoop, hm]
      rw [ih _ hrest]
      simp [Record.AddAnswer, answerOfEntry, hm]
    | some v =>
      have hv : L.Validate (L.MetaFromMap v) = [] := by simpa [entryErrors, hm] using ha
      simp only [answersLoop, hm, hv, List.length_nil, gt_iff_lt, lt_self_iff_false, if_false]
      rw [ih _ hrest]
      simp [Record.AddAnswer, answerOfEntry, hm]

theorem answersLoop_invalid {M : Type} (L : Lib M) (type : String) (as : List AnswerEntry) :
    ∀ r : Record M, (¬ ∀ a ∈ as, entryErrors L a.meta = []) →
      ∃ pre a post, as = pre ++ a :: post ∧ (∀ x ∈ pre, entryErrors L x.meta = []) ∧
        entryErrors L a.meta ≠ [] ∧
        answersLoop L type r as =
          .error ({ r with Answers := r.Answers ++ pre.map (answerOfEntry L type) },
            errJoin (errorsNew "found error/s in answer metadata" :: entryErrors L a.meta) ",") := by
  induction as with
  | nil => intro r h; simp at h
  | cons a rest ih =>
    intro r h
    by_cases ha : entryErrors L a.meta = []
    · have hrest : ¬ ∀ x ∈ rest, entryErrors L x.meta = [] := by
        intro hall
        apply h
        intro x hx
        rcases List.mem_cons.mp hx with rfl | hx'
        · exact ha
        · exact hall x hx'
      obtain ⟨pre, b, post, hsplit, hpre, hb, hloop⟩ :=
        ih (r.AddAnswer (answerOfEntry L type a)) hrest
      refine ⟨a :: pre, b, post, by simp [hsplit], ?_, hb, ?_⟩
      · intro x hx
        rcases List.mem_cons.mp hx with rfl | hx'
        · exact ha
        · exact hpre x hx'
      · cases hm : a.meta with
        | none =>
          have hstep : answersLoop L type r (a :: rest) =
              answersLoop L type (r.AddAnswer (answerOfEntry L type a)) rest := by
            simp [answersLoop, hm, answerOfEntry]
          rw [hstep, hloop]
          simp [Record.AddAnswer]
        | some v =>
          have hv : L.Validate (L.MetaFromMap v) = [] := by simpa [entryErrors, hm] using ha
          have hstep : answersLoop L type r (a :: rest) =
              answersLoop L type (r.AddAnswer (answerOfEntry L type a)) rest := by
            simp [answersLoop, hm, hv, answerOfEntry]
          rw [hstep, hloop]
          simp [Record.AddAnswer]
    · refine ⟨[], a, rest, rfl, by simp, ha, ?_⟩
      cases hm : a.meta with
      | none => simp [entryErrors, hm] at ha
      | some v =>
        have hv : L.Validate (L.MetaFromMap v) ≠ [] := by simpa [entryErrors, hm] using ha
        have hpos : (L.Validate (L.MetaFromMap v)).length > 0 := List.length_pos.mpr hv
        simp [answersLoop, hm, hpos, returnJoined, entryErrors]

theorem regionsLoop_valid {M : Type} (L : Lib M) (gs : List RegionEntry) :
    ∀ r : Record M, (∀ g ∈ gs, entryErrors L g.meta = []) →
      regionsLoop L r gs =
        .ok { r with
          Regions := List.foldl (fun m g => mapSet m g.name (regionOfEntry L g)) r.Regions gs } := by
  induction gs with
  | nil => intro r _; simp [regionsLoop]
  | cons g rest ih =>
    intro r h
    have hg := h g (List.mem_cons_self _ _)
    have hrest : ∀ x ∈ rest, entryErrors L x.meta = [] :=
      fun x hx => h x (List.mem_cons_of_mem _ hx)
    cases hm : g.meta with
    | none =>
      simp only [regionsLoop, hm]
      rw [ih _ hrest]
      simp [regionOfEntry, hm]
    | some v =>
      have hv : L.Validate (L.MetaFromMap v) = [] := by simpa [entryErrors, hm] using hg
      simp only [regionsLoop, hm, hv, List.length_nil, gt_iff_lt, lt_self_iff_false, if_false]
      rw [ih _ hrest]
      simp [regionOfEntry, hm]

theorem regionsLoop_invalid {M : Type} (L : Lib M) (gs : List RegionEntry) :
    ∀ r : Record M, (¬ ∀ g ∈ gs, entryErrors L g.meta = []) →
      ∃ pre g post r', gs = pre ++ g :: post ∧ (∀ x ∈ pre, entryErrors L x.meta = []) ∧
        entryErrors L g.meta ≠ [] ∧
        regionsLoop L r gs =
          .error (r',
            errJoin (errorsNew "found error/s in region/group metadata" :: entryErrors L g.meta)
              ",") := by
  induction gs with
  | nil => intro r h; simp at h
  | cons g rest ih =>
    intro r h
    by_cases hg : entryErrors L g.meta = []
    · have hrest : ¬ ∀ x ∈ rest, entryErrors L x.meta = [] := by
        intro hall
        apply h
        intro x hx
        rcases List.mem_cons.mp hx with rfl | hx'
        · exact hg
        · exact hall x hx'
      obtain ⟨pre, b, post, r', hsplit, hpre, hb, hloop⟩ :=
        ih { r with Regions := mapSet r.Regions g.name (regionOfEntry L g) } hrest
      refine ⟨g :: pre, b, post, r', by simp [hsplit], ?_, hb, ?_⟩
      · intro x hx
        rcases List.mem_cons.mp hx with rfl | hx'
        · exact hg
        · exact hpre x hx'
      · cases hm : g.meta with
        | none =>
          have hstep : regionsLoop L r (g :: rest) =
              regionsLoop L { r with Regions := mapSet r.Regions g.name (regionOfEntry L g) }
                rest := by
            simp [regionsLoop, hm, regionOfEntry]
          rw [hstep, hloop]
        | some v =>
          have hv : L.Validate (L.MetaFromMap v) = [] := by simpa [entryErrors, hm] using hg
          have hstep : regionsLoop L r (g :: rest) =
              regionsLoop L { r with Regions := mapSet r.Regions g.name (regionOfEntry L g) }
                rest := by
            simp [regionsLoop, hm, hv, regionOfEntry]
          rw [hstep, hloop]
    · refine ⟨[], g, rest, r, rfl, by simp, hg, ?_⟩
      cases hm : g.meta with
      | none => simp [entryErrors, hm] at hg
      | some v =>
        have hv : L.Validate (L.MetaFromMap v) ≠ [] := by simpa [entryErrors, hm] using hg
        have hpos : (L.Validate (L.MetaFromMap v)).length > 0 := List.length_pos.mpr hv
        simp [regionsLoop, hm, hpos, returnJoined, entryErrors]

/-! ## `resourceDataToRecord` as a whole -/

theorem shortAnswers_fold {M : Type} (f : String → Answer M) (xs : List String) :
    ∀ r : Record M, xs.foldl (fun r answer => r.AddAnswer (f answer)) r =
      { r with Answers := r.Answers ++ xs.map f } := by
  induction xs with
  | nil => intro r; simp
  | cons x rest ih =>
    intro r
    rw [List.foldl_cons, ih]
    simp [Record.AddAnswer]

theorem shortAnswers_stage {M : Type} (L : Lib M) (d : ResourceData) (r : Record M) :
    (if d.short_answers.length > 0 then
      d.short_answers.foldl (fun r answer => r.AddAnswer (answerFromString L d.type answer)) r
    else r) = { r with Answers := r.Answers ++ d.short_answers.map (answerFromString L d.type) } := by
  rw [shortAnswers_fold]
  cases h : d.short_answers with
  | nil => simp
  | cons x xs => simp

theorem answers_stage_valid {M : Type} (L : Lib M) (type : String) (as : List AnswerEntry)
    (r : Record M) (h : ∀ a ∈ as, entryErrors L a.meta = []) :
    (if as.length > 0 then answersLoop L type r as else .ok r) =
      .ok { r with Answers := r.Answers ++ as.map (answerOfEntry L type) } := by
  cases has : as with
  | nil => simp
  | cons x xs =>
    rw [← has]
    have hpos : as.length > 0 := by simp [has]
    simp only [hpos, if_true]
    exact answersLoop_valid L type as r h

theorem regions_stage_valid {M : Type} (L : Lib M) (gs : List RegionEntry)
    (r : Record M) (h : ∀ g ∈ gs, entryErrors L g.meta = []) :
    (if gs.length > 0 then regionsLoop L r gs else .ok r) =
      .ok { r with
        Regions := List.foldl (fun m g => mapSet m g.name (regionOfEntry L g)) r.Regions gs } := by
  cases hgs : gs with
  | nil => simp
  | cons x xs =>
    rw [← hgs]
    have hpos : gs.length > 0 := by simp [hgs]
    simp only [hpos, if_true]
    exact regionsLoop_valid L gs r h

theorem body_eq_steps {M : Type} (L : Lib M) (r : Record M) (d : ResourceData) :
    resourceDataToRecordBody L r d =
      (if d.answers.length > 0 then answersLoop L d.type (afterShort L d r) d.answers
        else .ok (afterShort L d r)).bind (afterAnswers L d) := by
  have h : resourceDataToRecordBody L r d =
      (if d.answers.length > 0 then
          answersLoop L d.type
            (if d.short_answers.length > 0 then
              d.short_answers.foldl
                (fun r answer => r.AddAnswer (answerFromString L d.type answer)) { r with ID := d.id }
             else { r with ID := d.id })
            d.answers
        else .ok (if d.short_answers.length > 0 then
              d.short_answers.foldl
                (fun r answer => r.AddAnswer (answerFromString L d.type answer)) { r with ID := d.id }
             else { r with ID := d.id })).bind (afterAnswers L d) := rfl
  rw [h, shortAnswers_stage]
  rfl

theorem linkStep_cases {M : Type} (d : ResourceData) (r : Record M) :
    (d.link ≠ "" ∧ r.Answers ≠ [] ∧
      linkStep d r =
        .error (r, some (errorsNew "cannot have both link and answers in a record"))) ∨
    ((d.link ≠ "" → r.Answers = []) ∧
      linkStep d r = .ok (if d.link ≠ "" then r.LinkTo d.link else r)) := by
  by_cases hl : d.link = ""
  · right
    simp [linkStep, hl]
  · cases ha : r.Answers with
    | nil =>
      right
      simp [linkStep, hl, ha]
    | cons a rest =>
      left
      simp [linkStep, hl, ha]

theorem metaStep_cases {M : Type} (L : Lib M) (d : ResourceData) (r : Record M) :
    (d.meta ≠ [] ∧ L.Validate (L.MetaFromMap d.meta) ≠ [] ∧
      metaStep L d r =
        .error ({ r with Meta := some (L.MetaFromMap d.meta) },
          errJoin (errorsNew "found error/s in record metadata" ::
            L.Validate (L.MetaFromMap d.meta)) ",")) ∨
    ((d.meta ≠ [] → L.Validate (L.MetaFromMap d.meta) = []) ∧
      metaStep L d r =
        .ok (if d.meta ≠ [] then { r with Meta := some (L.MetaFromMap d.meta) } else r)) := by
  by_cases hm : d.meta = []
  · right
    simp [metaStep, hm]
  · cases hv : L.Validate (L.MetaFromMap d.meta) with
    | nil =>
      right
      simp [metaStep, hm, hv]
    | cons e rest =>
      left
      simp [metaStep, hm, hv, returnJoined]

theorem tailSteps_cases {M : Type} (L : Lib M) (d : ResourceData) (r : Record M) :
    (∃ pre g post r', d.regions = pre ++ g :: post ∧
      (∀ x ∈ pre, entryErrors L x.meta = []) ∧ entryErrors L g.meta ≠ [] ∧
      tailSteps L d r =
        .error (r', errJoin (errorsNew "found error/s in region/group metadata" ::
          entryErrors L g.meta) ",")) ∨
    ((∀ g ∈ d.regions, entryErrors L g.meta = []) ∧
      tailSteps L d r =
        .ok { r with
          UseClientSubnet := some d.use_client_subnet,
          Filters := (if d.filters.length > 0 then d.filters.map filterFromMap else r.Filters),
          Regions :=
            List.foldl (fun m g => mapSet m g.name (regionOfEntry L g)) r.Regions d.regions }) := by
  by_cases hv : ∀ g ∈ d.regions, entryErrors L g.meta = []
  · right
    refine ⟨hv, ?_⟩
    have h := regions_stage_valid L d.regions
      (if d.filters.length > 0 then
        { r with UseClientSubnet := some d.use_client_subnet,
                 Filters := d.filters.map filterFromMap }
       else { r with UseClientSubnet := some d.use_client_subnet }) hv
    simp only [tailSteps]
    rw [h]
    by_cases hf : d.filters.length > 0 <;> simp [hf]
  · left
    have hpos : d.regions.length > 0 := by
      cases hr : d.regions with
      | nil => simp [hr] at hv
      | cons x xs => simp
    obtain ⟨pre, g, post, r', hsplit, hpre, hg, hloop⟩ := regionsLoop_invalid L d.regions
      (if d.filters.length > 0 then
        { r with UseClientSubnet := some d.use_client_subnet,
                 Filters := d.filters.map filterFromMap }
       else { r with UseClientSubnet := some d.use_client_subnet }) hv
    refine ⟨pre, g, post, r', hsplit, hpre, hg, ?_⟩
    simp only [tailSteps, hpos, if_true]
    rw [← hloop]

theorem afterShort_answers {M : Type} (L : Lib M) (d : ResourceData) (r : Record M)
    (hv : ∀ a ∈ d.answers, entryErrors L a.meta = []) :
    resourceDataToRecordBody L r d =
      afterAnswers L d
        { afterShort L d r with Answers := r.Answers ++ builtAnswers L d } := by
  rw [body_eq_steps, answers_stage_valid L d.type d.answers (afterShort L d r) hv]
  simp [Except.bind, afterShort, builtAnswers]

theorem resourceDataToRecord_ok_iff {M : Type} (L : Lib M) (r r' : Record M)
    (d : ResourceData) :
    resourceDataToRecord L r d = (r', none) ↔
      conversionOk L r d ∧ r' = convertedRecord L r d := by
  unfold resourceDataToRecord conversionOk
  by_cases hv : ∀ a ∈ d.answers, entryErrors L a.meta = []
  · rw [afterShort_answers L d r hv]
    simp only [afterAnswers]
    generalize hr2 : (if d.ttl ≠ 0 then
      { ({ afterShort L d r with Answers := r.Answers ++ builtAnswers L d } : Record M) with
        TTL := d.ttl }
      else { afterShort L d r with Answers := r.Answers ++ builtAnswers L d }) = r2
    have hr2a : r2.Answers = r.Answers ++ builtAnswers L d := by
      rw [← hr2]; split <;> rfl
    rcases linkStep_cases d r2 with ⟨hl, ha, hstep⟩ | ⟨hl, hstep⟩
    · rw [hstep]
      simp only [Except.bind]
      constructor
      · intro h
        simp at h
      · rintro ⟨⟨_, hlink, _⟩, _⟩
        exact absurd (hlink hl) (hr2a ▸ ha)
    · rw [hstep]
      simp only [Except.bind]
      generalize hr3 : (if d.link ≠ "" then r2.LinkTo d.link else r2) = r3
      rcases metaStep_cases L d r3 with ⟨hm, hmv, hstep⟩ | ⟨hm, hstep⟩
      · rw [hstep]
        simp only [Except.bind]
        constructor
        · intro h
          have := errJoin_cons_ne_none (errorsNew "found error/s in record metadata")
            (L.Validate (L.MetaFromMap d.meta)) ","
          simp_all
        · rintro ⟨⟨_, _, hmeta, _⟩, _⟩
          exact absurd (hmeta hm) hmv
      · rw [hstep]
        simp only [Except.bind]
        generalize hr4 :
          (if d.meta ≠ [] then { r3 with Meta := some (L.MetaFromMap d.meta) } else r3) = r4
        rcases tailSteps_cases L d r4 with ⟨pre, g, post, r5, hsplit, hpre, hg, hstep⟩ | ⟨hg, hstep⟩
        · rw [hstep]
          constructor
          · intro h
            have := errJoin_cons_ne_none (errorsNew "found error/s in region/group metadata")
              (entryErrors L g.meta) ","
            simp_all
          · rintro ⟨⟨_, _, _, hreg⟩, _⟩
            exact absurd (hreg g (by simp [hsplit])) hg
        · rw [hstep]
          have hfinal : ({ r4 with
              UseClientSubnet := some d.use_client_subnet,
              Filters := (if d.filters.length > 0 then d.filters.map filterFromMap else r4.Filters),
              Regions := List.foldl (fun m g => mapSet m g.name (regionOfEntry L g)) r4.Regions
                d.regions } : Record M) = convertedRecord L r d := by
            subst hr4 hr3 hr2
            simp only [convertedRecord, afterShort, Record.LinkTo]
            by_cases h1 : d.meta = [] <;> by_cases h2 : d.link = "" <;>
              by_cases h3 : d.ttl = 0 <;> simp [h1, h2, h3]
          rw [hfinal]
          constructor
          · intro h
            refine ⟨⟨hv, ?_, hm, hg⟩, ?_⟩
            · intro hne
              rw [← hr2a]
              exact hl hne
            · simp at h
              exact h.symm
          · rintro ⟨_, rfl⟩
            rfl
  · obtain ⟨pre, a, post, hsplit, hpre, ha, hloop⟩ :=
      answersLoop_invalid L d.type d.answers (afterShort L d r) hv
    have hpos : d.answers.length > 0 := by simp [hsplit]
    rw [body_eq_steps]
    simp only [hpos, if_true, hloop, Except.bind]
    constructor
    · intro h
      have := errJoin_cons_ne_none (errorsNew "found error/s in answer metadata")
        (entryErrors L a.meta) ","
      simp_all
    · rintro ⟨⟨hall, _⟩, _⟩
      exact absurd hall hv

theorem resourceDataToRecord_answer_error {M : Type} (L : Lib M) (r : Record M)
    (d : ResourceData) (hv : ¬ ∀ a ∈ d.answers, entryErrors L a.meta = []) :
    ∃ pre a post, d.answers = pre ++ a :: post ∧
      (∀ x ∈ pre, entryErrors L x.meta = []) ∧ entryErrors L a.meta ≠ [] ∧
      (resourceDataToRecord L r d).2 =
        errJoin (errorsNew "found error/s in answer metadata" :: entryErrors L a.meta) "," := by
  obtain ⟨pre, a, post, hsplit, hpre, ha, hloop⟩ :=
    answersLoop_invalid L d.type d.answers (afterShort L d r) hv
  have hpos : d.answers.length > 0 := by simp [hsplit]
  refine ⟨pre, a, post, hsplit, hpre, ha, ?_⟩
  unfold resourceDataToRecord
  rw [body_eq_steps]
  simp only [hpos, if_true, hloop, Except.bind]

theorem resourceDataToRecord_link_error {M : Type} (L : Lib M) (r : Record M)
    (d : ResourceData) (hv : ∀ a ∈ d.answers, entryErrors L a.meta = [])
    (hl : d.link ≠ "") (ha : r.Answers ++ builtAnswers L d ≠ []) :
    (resourceDataToRecord L r d).2 =
      some (errorsNew "cannot have both link and answers in a record") := by
  unfold resourceDataToRecord
  rw [afterShort_answers L d r hv]
  simp only [afterAnswers]
  generalize hr2 : (if d.ttl ≠ 0 then
    { ({ afterShort L d r with Answers := r.Answers ++ builtAnswers L d } : Record M) with
      TTL := d.ttl }
    else { afterShort L d r with Answers := r.Answers ++ builtAnswers L d }) = r2
  have hr2a : r2.Answers = r.Answers ++ builtAnswers L d := by
    rw [← hr2]; split <;> rfl
  rcases linkStep_cases d r2 with ⟨_, _, hstep⟩ | ⟨hl', _⟩
  · rw [hstep]
    simp [Except.bind]
  · exact absurd (hr2a ▸ hl' hl) ha

theorem containsStr_of_mem_join (xs : List String) (sep x : String) (hx : x ∈ xs) :
    containsStr (stringsJoin xs sep) x = true := by
  rw [containsStr_iff]
  cases xs with
  | nil => simp at hx
  | cons y ys =>
    simp only [stringsJoin, List.map_cons, intercalate_cons_eq]
    rcases List.mem_cons.mp hx with rfl | hx'
    · exact List.infix_append' [] x.data _
    · have hmem : sep.data ++ x.data ∈ (ys.map String.data).map (fun z => sep.data ++ z) := by
        simp only [List.map_map, List.mem_map, Function.comp]
        exact ⟨x, hx', rfl⟩
      have h1 : x.data <:+: sep.data ++ x.data := (List.suffix_append _ _).isInfix
      have h2 := List.infix_of_mem_flatten hmem
      exact List.IsInfix.trans (List.IsInfix.trans h1 h2) (List.suffix_append _ _).isInfix

/-! ## `recordToResourceData` as a whole -/

theorem recordToResourceData_eq {M : Type} (L : Lib M) (d : ResourceData) (r : Record M) :
    recordToResourceData L d r = writeLists L r (scalarsWritten L d r) := by
  obtain ⟨meta, id, zone, domain, typ, link, ttl, ucs, answers, filters, regions⟩ := r
  unfold recordToResourceData writeLists writeRegions scalarsWritten
  cases meta <;> cases ucs <;> by_cases h1 : link = "" <;>
    by_cases h2 : filters.length > 0 <;> simp only [h1, h2, ne_eq, not_true_eq_false,
      not_false_eq_true, if_true, if_false]

theorem writeLists_filters {M : Type} (L : Lib M) (r : Record M) (d : ResourceData) :
    (writeLists L r d).1.filters = d.filters := by
  unfold writeLists writeRegions
  rcases hA : L.setAnswers (r.Answers.map (answerToMap L)) with _ | e <;>
    rcases hR : L.setRegions (regionsToList L r.Regions) with _ | e' <;>
    by_cases h3 : r.Answers.length > 0 <;> by_cases h4 : r.Regions.length > 0 <;>
    simp [h3, h4, hA, hR]

theorem recordToResourceData_filters {M : Type} (L : Lib M) (d : ResourceData) (r : Record M) :
    (recordToResourceData L d r).1.filters =
      if r.Filters.length > 0 then r.Filters.map filterToMap else d.filters := by
  rw [recordToResourceData_eq, writeLists_filters]
  rfl

theorem recordToResourceData_ok_iff {M : Type} (L : Lib M) (d : ResourceData) (r : Record M) :
    (recordToResourceData L d r).2 = none ↔ setsAccepted L r := by
  rw [recordToResourceData_eq]
  unfold writeLists writeRegions setsAccepted
  rcases hA : L.setAnswers (r.Answers.map (answerToMap L)) with _ | e <;>
    rcases hR : L.setRegions (regionsToList L r.Regions) with _ | e' <;>
    by_cases h3 : r.Answers.length > 0 <;> by_cases h4 : r.Regions.length > 0 <;>
    simp [h3, h4, hA, hR]

theorem recordToResourceData_accepted {M : Type} (L : Lib M) (d : ResourceData) (r : Record M)
    (h : setsAccepted L r) : recordToResourceData L d r = (writtenState L d r, none) := by
  unfold setsAccepted at h
  obtain ⟨hA, hR⟩ := h
  rw [recordToResourceData_eq]
  unfold writeLists writeRegions writtenState scalarsWritten
  by_cases h3 : r.Answers.length > 0 <;> by_cases h4 : r.Regions.length > 0 <;>
    simp [h3, h4, hA, hR]

/-! ## Import handler: theorems -/

/-- C1: `recordStateFunc` succeeds exactly when the ID contains two `/` bytes,
which is exactly when splitting on `/` gives three parts; otherwise it returns
an error (and hence no resource data).  The IDs `a/b`, `a/b/c/d` and the empty
string fail, `a/b/c` succeeds. -/
theorem recordStateFunc_ok_iff_two_slashes :
    (∀ d : ResourceData,
      ((∃ ds, recordStateFunc d = .ok ds) ↔ countByte d.id '/' = 2) ∧
      ((∃ e, recordStateFunc d = .error e) ↔ countByte d.id '/' ≠ 2) ∧
      ((stringsSplit d.id '/').length = 3 ↔ countByte d.id '/' = 2)) ∧
    (∃ e, recordStateFunc (importState "a/b") = .error e) ∧
    (∃ ds, recordStateFunc (importState "a/b/c") = .ok ds) ∧
    (∃ e, recordStateFunc (importState "a/b/c/d") = .error e) ∧
    (∃ e, recordStateFunc (importState "") = .error e) := by
  refine ⟨?_, ⟨_, rfl⟩, ⟨_, rfl⟩, ⟨_, rfl⟩, ⟨_, rfl⟩⟩
  intro d
  have hlen := stringsSplit_length d.id '/'
  have h3 : (stringsSplit d.id '/').length = 3 ↔ countByte d.id '/' = 2 := by
    rw [hlen]; omega
  refine ⟨?_, ?_, h3⟩
  · by_cases h : (stringsSplit d.id '/').length = 3
    · simp [recordStateFunc, h, h3.mp h]
    · have h2 : ¬ countByte d.id '/' = 2 := fun h2 => h (h3.mpr h2)
      simp [recordStateFunc, h, h2]
  · by_cases h : (stringsSplit d.id '/').length = 3
    · simp [recordStateFunc, h, h3.mp h]
    · have h2 : ¬ countByte d.id '/' = 2 := fun h2 => h (h3.mpr h2)
      simp [recordStateFunc, h, h2]

/-- C2: for an ID `z/dm/t` whose three parts contain no `/`, `recordStateFunc`
returns exactly one resource data: the given one with `zone = z`, `domain = dm`,
`type = t`, the ID and every other field unchanged; joining the three fields
with `/` gives back the ID. -/
theorem recordStateFunc_sets_fields (d : ResourceData) (z dm t : String)
    (hz : countByte z '/' = 0) (hdm : countByte dm '/' = 0) (ht : countByte t '/' = 0)
    (hid : d.id = z ++ "/" ++ dm ++ "/" ++ t) :
    ∃ d', recordStateFunc d = .ok [d'] ∧
      d' = { d with zone := z, domain := dm, type := t } ∧
      d'.zone = z ∧ d'.domain = dm ∧ d'.type = t ∧ d'.id = d.id ∧
      d'.zone ++ "/" ++ d'.domain ++ "/" ++ d'.type = d.id := by
  have hsplit : d.id.data.splitOn '/' = [z.data, dm.data, t.data] := by
    have h := splitOn_three '/' z.data dm.data t.data
      (by simpa [countByte, List.count_eq_zero] using hz)
      (by simpa [countByte, List.count_eq_zero] using hdm)
      (by simpa [countByte, List.count_eq_zero] using ht)
    rw [hid]
    simpa [String.data_append] using h
  refine ⟨{ d with zone := z, domain := dm, type := t }, ?_, rfl, rfl, rfl, rfl, rfl, hid.symm⟩
  simp [recordStateFunc, stringsSplit, hsplit]

theorem recordStateFunc_sets_fields_witness :
    ∃ d', recordStateFunc (importState "example.io/www.example.io/CNAME") = .ok [d'] ∧
      d' = { importState "example.io/www.example.io/CNAME" with
              zone := "example.io", domain := "www.example.io", type := "CNAME" } ∧
      d'.zone = "example.io" ∧ d'.domain = "www.example.io" ∧ d'.type = "CNAME" ∧
      d'.id = (importState "example.io/www.example.io/CNAME").id ∧
      d'.zone ++ "/" ++ d'.domain ++ "/" ++ d'.type =
        (importState "example.io/www.example.io/CNAME").id :=
  recordStateFunc_sets_fields (importState "example.io/www.example.io/CNAME")
    "example.io" "www.example.io" "CNAME" (by decide) (by decide) (by decide) (by decide)

/-- C3: whenever `recordStateFunc` fails, the message is the fixed text naming
the expected format (`"zone/domain/type"`, 2 slashes) followed by the decimal
number of `/` bytes that occur in the ID. -/
theorem recordStateFunc_error_message (d : ResourceData) (e : GoError)
    (h : recordStateFunc d = .error e) :
    e.Error = "invalid record specifier.  Expecting 2 slashes (\"zone/domain/type\"), got "
        ++ toString (countByte d.id '/') ∧
    containsStr e.Error "Expecting 2 slashes (\"zone/domain/type\")" = true := by
  have hlen := stringsSplit_length d.id '/'
  have hmsg : e.Error =
      "invalid record specifier.  Expecting 2 slashes (\"zone/domain/type\"), got "
        ++ toString (countByte d.id '/') := by
    by_cases h3 : (stringsSplit d.id '/').length = 3
    · simp [recordStateFunc, h3] at h
    · simp only [recordStateFunc, ne_eq, h3, not_false_eq_true, if_true] at h
      have he : e = errorsNew
          ("invalid record specifier.  Expecting 2 slashes (\"zone/domain/type\"), got "
            ++ toString ((stringsSplit d.id '/').length - 1)) := by
        injection h with h'
        exact h'.symm
      rw [he, hlen]
      simp [errorsNew]
  refine ⟨hmsg, ?_⟩
  rw [hmsg]
  exact containsStr_append_left _ _ _ (by decide)

theorem recordStateFunc_error_message_witness :
    (⟨"invalid record specifier.  Expecting 2 slashes (\"zone/domain/type\"), got 3"⟩ : GoError).Error
      = "invalid record specifier.  Expecting 2 slashes (\"zone/domain/type\"), got "
        ++ toString (countByte (importState "a/b/c/d").id '/') ∧
    containsStr (⟨"invalid record specifier.  Expecting 2 slashes (\"zone/domain/type\"), got 3"⟩ : GoError).Error
      "Expecting 2 slashes (\"zone/domain/type\")" = true :=
  recordStateFunc_error_message (importState "a/b/c/d") _ (by decide)

/-! ## Record converter: theorems -/

/-- C4, as stated, fails: with a link and one answer whose metadata does not
validate, `resourceDataToRecord` on a fresh record returns the answer-metadata
error, whose message does not contain "cannot have both". -/
theorem link_with_invalid_answer_meta_counterexample :
    linkedInvalidState.link ≠ "" ∧ linkedInvalidState.answers ≠ [] ∧
    (resourceDataToRecord exampleLib (NewRecord exampleLib "example.io" "www.example.io" "A")
        linkedInvalidState).2 =
      some (errorsNew "found error/s in answer metadata,invalid value for weight") ∧
    containsStr "found error/s in answer metadata,invalid value for weight"
      "cannot have both" = false := by
  decide

/-- C4, amended: for every state with a non-empty link and at least one answer
(in `short_answers` or `answers`), `resourceDataToRecord` on a freshly created
record fails; when no element of `answers` has metadata with validation errors
the error is "cannot have both link and answers in a record" (otherwise the
answer-metadata error is returned first).  Hence no record left by a successful
conversion has both a non-empty link and a non-empty answer list. -/
theorem link_with_answers_fails {M : Type} (L : Lib M) (d : ResourceData) (z dm t : String)
    (hlink : d.link ≠ "") (hans : d.short_answers ≠ [] ∨ d.answers ≠ []) :
    (∃ e, (resourceDataToRecord L (NewRecord L z dm t) d).2 = some e) ∧
    ((∀ a ∈ d.answers, entryErrors L a.meta = []) →
      (resourceDataToRecord L (NewRecord L z dm t) d).2 =
        some (errorsNew "cannot have both link and answers in a record")) ∧
    containsStr "cannot have both link and answers in a record" "cannot have both" = true ∧
    (∀ (d' : ResourceData) (r' : Record M),
      resourceDataToRecord L (NewRecord L z dm t) d' = (r', none) →
        ¬ (r'.Link ≠ "" ∧ r'.Answers ≠ [])) := by
  have hbuilt : (NewRecord L z dm t).Answers ++ builtAnswers L d ≠ [] := by
    rcases hans with h | h
    · cases hs : d.short_answers with
      | nil => exact absurd hs h
      | cons x xs => simp [builtAnswers, hs]
    · cases hs : d.answers with
      | nil => exact absurd hs h
      | cons x xs => simp [builtAnswers, hs]
  have hvalid := resourceDataToRecord_link_error L (NewRecord L z dm t) d
  refine ⟨?_, fun hv => hvalid hv hlink hbuilt, by decide, ?_⟩
  · by_cases hv : ∀ a ∈ d.answers, entryErrors L a.meta = []
    · exact ⟨_, hvalid hv hlink hbuilt⟩
    · obtain ⟨pre, a, post, _, _, _, herr⟩ :=
        resourceDataToRecord_answer_error L (NewRecord L z dm t) d hv
      obtain ⟨j, hj, _⟩ := errJoin_message (errorsNew "found error/s in answer metadata")
        (entryErrors L a.meta) ","
      exact ⟨j, by rw [herr, hj]⟩
  · intro d' r' hok
    obtain ⟨⟨_, hl, _, _⟩, hr'⟩ := (resourceDataToRecord_ok_iff L _ r' d').mp hok
    rintro ⟨h1, h2⟩
    rw [hr'] at h1 h2
    by_cases hd : d'.link = ""
    · simp [convertedRecord, hd, NewRecord] at h1
    · simp [convertedRecord, hd] at h2

theorem link_with_answers_fails_witness :
    (∃ e, (resourceDataToRecord exampleLib
        (NewRecord exampleLib "example.io" "www.example.io" "A") linkedState).2 = some e) ∧
    ((∀ a ∈ linkedState.answers, entryErrors exampleLib a.meta = []) →
      (resourceDataToRecord exampleLib
        (NewRecord exampleLib "example.io" "www.example.io" "A") linkedState).2 =
        some (errorsNew "cannot have both link and answers in a record")) ∧
    containsStr "cannot have both link and answers in a record" "cannot have both" = true ∧
    (∀ (d' : ResourceData) (r' : Record StateMap),
      resourceDataToRecord exampleLib
        (NewRecord exampleLib "example.io" "www.example.io" "A") d' = (r', none) →
        ¬ (r'.Link ≠ "" ∧ r'.Answers ≠ [])) :=
  link_with_answers_fails exampleLib linkedState "example.io" "www.example.io" "A"
    (by decide) (by decide)

/-- C6, as stated, fails: with two answers and the record itself carrying
invalid metadata, the returned message holds only the errors of the first
answer; the errors of the second answer and of the record are absent. -/
theorem later_meta_errors_dropped_counterexample :
    entryErrors exampleLib (some [("weight", "")]) =
      [errorsNew "invalid value for weight"] ∧
    entryErrors exampleLib (some [("priority", "")]) =
      [errorsNew "invalid value for priority"] ∧
    exampleLib.Validate (exampleLib.MetaFromMap twoInvalidState.meta) =
      [errorsNew "invalid value for up"] ∧
    (resourceDataToRecord exampleLib (NewRecord exampleLib "example.io" "www.example.io" "A")
        twoInvalidState).2 =
      some (errorsNew "found error/s in answer metadata,invalid value for weight") ∧
    containsStr "found error/s in answer metadata,invalid value for weight"
      "invalid value for priority" = false ∧
    containsStr "found error/s in answer metadata,invalid value for weight"
      "invalid value for up" = false := by
  decide

/-- C6, amended: for every state in which some answer carries metadata with
validation errors, the error returned by `resourceDataToRecord` is a single
combined message: "found error/s in answer metadata" followed by the message of
every validation error of the first such answer, in order, joined with ",";
so it contains each of those messages. -/
theorem first_invalid_answer_errors_joined {M : Type} (L : Lib M) (r : Record M)
    (d : ResourceData) (hv : ¬ ∀ a ∈ d.answers, entryErrors L a.meta = []) :
    ∃ pre a post e, d.answers = pre ++ a :: post ∧
      (∀ x ∈ pre, entryErrors L x.meta = []) ∧ entryErrors L a.meta ≠ [] ∧
      (resourceDataToRecord L r d).2 = some e ∧
      e.Error = stringsJoin ("found error/s in answer metadata" ::
        (entryErrors L a.meta).map GoError.Error) "," ∧
      ∀ x ∈ entryErrors L a.meta, containsStr e.Error x.Error = true := by
  obtain ⟨pre, a, post, hsplit, hpre, ha, herr⟩ := resourceDataToRecord_answer_error L r d hv
  obtain ⟨j, hj, hmsg⟩ := errJoin_message (errorsNew "found error/s in answer metadata")
    (entryErrors L a.meta) ","
  refine ⟨pre, a, post, j, hsplit, hpre, ha, by rw [herr, hj], ?_, ?_⟩
  · rw [hmsg]
    rfl
  · intro x hx
    rw [hmsg]
    apply containsStr_of_mem_join
    exact List.mem_cons_of_mem _ (List.mem_map_of_mem _ hx)

theorem first_invalid_answer_errors_joined_witness :
    ∃ pre a post e, twoInvalidState.answers = pre ++ a :: post ∧
      (∀ x ∈ pre, entryErrors exampleLib x.meta = []) ∧ entryErrors exampleLib a.meta ≠ [] ∧
      (resourceDataToRecord exampleLib
        (NewRecord exampleLib "example.io" "www.example.io" "A") twoInvalidState).2 = some e ∧
      e.Error = stringsJoin ("found error/s in answer metadata" ::
        (entryErrors exampleLib a.meta).map GoError.Error) "," ∧
      ∀ x ∈ entryErrors exampleLib a.meta, containsStr e.Error x.Error = true :=
  first_invalid_answer_errors_joined exampleLib
    (NewRecord exampleLib "example.io" "www.example.io" "A") twoInvalidState (by decide)

/-- C9: whenever `resourceDataToRecord` succeeds on a fresh record (in
particular with an empty link), the answers of the built record are, in order,
one per `short_answers` element followed by one per `answers` element; an
element with text `v` has rdata `[v]` when the record type is TXT or SPF and
`v` split on single spaces otherwise. -/
theorem answers_built_in_order {M : Type} (L : Lib M) (d : ResourceData) (r' : Record M)
    (hok : resourceDataToRecord L (NewRecord L d.zone d.domain d.type) d = (r', none)) :
    r'.Typ = d.type ∧
    r'.Answers.map Answer.Rdata =
      (d.short_answers ++ d.answers.map AnswerEntry.answer).map
        (fun v => if r'.Typ = "TXT" ∨ r'.Typ = "SPF" then [v] else stringsSplit v ' ') := by
  obtain ⟨⟨_, hl, _, _⟩, hr'⟩ := (resourceDataToRecord_ok_iff L _ r' d).mp hok
  have htyp : r'.Typ = d.type := by rw [hr']; rfl
  refine ⟨htyp, ?_⟩
  rw [htyp]
  have hrd1 : ∀ v, (answerFromString L d.type v : Answer M).Rdata =
      (if d.type = "TXT" ∨ d.type = "SPF" then [v] else stringsSplit v ' ') := by
    intro v
    unfold answerFromString
    split <;> rfl
  have hrd2 : ∀ e : AnswerEntry, (answerOfEntry L d.type e : Answer M).Rdata =
      (if d.type = "TXT" ∨ d.type = "SPF" then [e.answer] else stringsSplit e.answer ' ') := by
    intro e
    rw [← hrd1]
    unfold answerOfEntry
    cases e.region <;> cases e.meta <;> rfl
  have hb : (builtAnswers L d).map Answer.Rdata =
      (d.short_answers ++ d.answers.map AnswerEntry.answer).map
        (fun v => if d.type = "TXT" ∨ d.type = "SPF" then [v] else stringsSplit v ' ') := by
    simp only [builtAnswers, List.map_append, List.map_map]
    congr 1
    · apply List.map_congr_left
      intro v _
      exact hrd1 v
    · apply List.map_congr_left
      intro e _
      exact hrd2 e
  rw [hr']
  by_cases hd : d.link = ""
  · simp only [convertedRecord, hd, ne_eq, not_true_eq_false, if_false, NewRecord,
      List.nil_append]
    exact hb
  · have hnil : builtAnswers L d = [] := by
      have := hl hd
      simpa [NewRecord] using this
    rw [← hb, hnil]
    simp [convertedRecord, hd]

theorem answers_built_in_order_witness :
    ((resourceDataToRecord exampleLib (NewRecord exampleLib spfState.zone spfState.domain
        spfState.type) spfState).1.Answers.map Answer.Rdata = [["v=DKIM1; k=rsa; p=XXXXXXXX"]]) ∧
    ((resourceDataToRecord exampleLib (NewRecord exampleLib srvState.zone srvState.domain
        srvState.type) srvState).1.Answers.map Answer.Rdata =
      [["10", "0", "2380", "node-1.example.io"]]) :=
  ⟨(answers_built_in_order exampleLib spfState _ (by decide)).2.trans (by decide),
   (answers_built_in_order exampleLib srvState _ (by decide)).2.trans (by decide)⟩

/-! ## CRUD handlers: theorems -/

/-- C10: an error `e` returned by the REST client is returned unchanged by the
handler that made the call: `RecordRead` for `Records.Get`, `RecordCreate` for
`Records.Create`, `RecordUpdate` for `Records.Update`, `RecordDelete` for
`Records.Delete` and `dataSourceZoneRead` for `Zones.Get`; for read, create,
update and zone read the state is left exactly as it was. -/
theorem remote_errors_pass_through {M : Type} (L : Lib M) (H : ZoneHost) (client : Client M)
    (e : GoError) :
    (∀ d : ResourceData, client.RecordsGet d.zone d.domain d.type = .error e →
      (RecordRead L d client).err = some e ∧ (RecordRead L d client).state = d) ∧
    (∀ (d : ResourceData) (r : Record M),
      resourceDataToRecord L (NewRecord L d.zone d.domain d.type) d = (r, none) →
      client.RecordsCreate r = .error e →
      (RecordCreate L d client).err = some e ∧ (RecordCreate L d client).state = d) ∧
    (∀ (d : ResourceData) (r : Record M),
      resourceDataToRecord L (NewRecord L d.zone d.domain d.type) d = (r, none) →
      client.RecordsUpdate r = .error e →
      (RecordUpdate L d client).err = some e ∧ (RecordUpdate L d client).state = d) ∧
    (∀ d : ResourceData, client.RecordsDelete d.zone d.domain d.type = some e →
      (RecordDelete d client).err = some e) ∧
    (∀ zd : ZoneResourceData, client.ZonesGet zd.zone = .error e →
      (dataSourceZoneRead H zd client).err = some e ∧
        (dataSourceZoneRead H zd client).state = zd) := by
  refine ⟨?_, ?_, ?_, ?_, ?_⟩
  · intro d h
    simp [RecordRead, h]
  · intro d r hconv h
    simp [RecordCreate, hconv, h]
  · intro d r hconv h
    simp [RecordUpdate, hconv, h]
  · intro d h
    simp [RecordDelete, h]
  · intro zd h
    simp [dataSourceZoneRead, h]

theorem remote_errors_pass_through_witness :
    ((RecordRead exampleLib basicState (failingClient StateMap ⟨"503 unavailable"⟩)).err =
        some ⟨"503 unavailable"⟩ ∧
      (RecordRead exampleLib basicState (failingClient StateMap ⟨"503 unavailable"⟩)).state =
        basicState) ∧
    ((RecordCreate exampleLib basicState (failingClient StateMap ⟨"503 unavailable"⟩)).err =
        some ⟨"503 unavailable"⟩ ∧
      (RecordCreate exampleLib basicState (failingClient StateMap ⟨"503 unavailable"⟩)).state =
        basicState) ∧
    ((RecordUpdate exampleLib basicState (failingClient StateMap ⟨"503 unavailable"⟩)).err =
        some ⟨"503 unavailable"⟩ ∧
      (RecordUpdate exampleLib basicState (failingClient StateMap ⟨"503 unavailable"⟩)).state =
        basicState) ∧
    (RecordDelete basicState (failingClient StateMap ⟨"503 unavailable"⟩)).err =
      some ⟨"503 unavailable"⟩ ∧
    ((dataSourceZoneRead exampleHost (baseZoneState "example.io")
        (failingClient StateMap ⟨"503 unavailable"⟩)).err = some ⟨"503 unavailable"⟩ ∧
      (dataSourceZoneRead exampleHost (baseZoneState "example.io")
        (failingClient StateMap ⟨"503 unavailable"⟩)).state = baseZoneState "example.io") :=
  ⟨(remote_errors_pass_through exampleLib exampleHost
      (failingClient StateMap ⟨"503 unavailable"⟩)
      ⟨"503 unavailable"⟩).1 basicState rfl,
   (remote_errors_pass_through exampleLib exampleHost
      (failingClient StateMap ⟨"503 unavailable"⟩)
      ⟨"503 unavailable"⟩).2.1 basicState
      (resourceDataToRecord exampleLib
        (NewRecord exampleLib "example.io" "test.example.io" "CNAME") basicState).1
      (by decide) rfl,
   (remote_errors_pass_through exampleLib exampleHost
      (failingClient StateMap ⟨"503 unavailable"⟩)
      ⟨"503 unavailable"⟩).2.2.1 basicState
      (resourceDataToRecord exampleLib
        (NewRecord exampleLib "example.io" "test.example.io" "CNAME") basicState).1
      (by decide) rfl,
   (remote_errors_pass_through exampleLib exampleHost
      (failingClient StateMap ⟨"503 unavailable"⟩)
      ⟨"503 unavailable"⟩).2.2.2.1 basicState rfl,
   (remote_errors_pass_through exampleLib exampleHost
      (failingClient StateMap ⟨"503 unavailable"⟩)
      ⟨"503 unavailable"⟩).2.2.2.2 (baseZoneState "example.io") rfl⟩


/-! ## Region map: sorting and lookup -/

theorem lookup_perm {β : Type} (k : String) {l₁ l₂ : List (String × β)} (hp : l₁.Perm l₂)
    (hnd : (l₁.map Prod.fst).Nodup) : l₁.lookup k = l₂.lookup k := by
  induction hp with
  | nil => rfl
  | cons x _ ih =>
    obtain ⟨a, b⟩ := x
    simp only [List.map_cons, List.nodup_cons] at hnd
    simp only [List.lookup_cons]
    cases hka : (k == a) with
    | true => rfl
    | false => exact ih hnd.2
  | swap x y l =>
    obtain ⟨a, b⟩ := x
    obtain ⟨c, e⟩ := y
    simp only [List.map_cons, List.nodup_cons, List.mem_cons, not_or] at hnd
    have hne : c ≠ a := hnd.1.1
    simp only [List.lookup_cons]
    cases hka : (k == a) with
    | true =>
      have hk : k = a := by simpa using hka
      have hkc : (k == c) = false := by
        simp only [beq_eq_false_iff_ne, ne_eq]
        intro h
        exact hne (h ▸ hk)
      simp [hkc]
    | false => rfl
  | trans h₁ _ ih₁ ih₂ =>
    have hnd₂ := (h₁.map Prod.fst).nodup_iff.mp hnd
    exact (ih₁ hnd).trans (ih₂ hnd₂)

theorem sortStrings_perm (keys : List String) : (sortStrings keys).Perm keys :=
  List.perm_insertionSort _ keys

theorem sortStrings_sorted (keys : List String) : (sortStrings keys).Sorted (· ≤ ·) := by
  haveI : IsTotal String (fun a b => a.data ≤ b.data) := ⟨fun a b => le_total a.data b.data⟩
  haveI : IsTrans String (fun a b => a.data ≤ b.data) :=
    ⟨fun a b c hab hbc => le_trans hab hbc⟩
  have h := List.sorted_insertionSort (fun a b : String => a.data ≤ b.data) keys
  exact List.Pairwise.imp (fun hab => String.le_iff_toList_le.mpr hab) h

theorem sortStrings_eq_of_perm {k₁ k₂ : List String} (hp : k₁.Perm k₂) :
    sortStrings k₁ = sortStrings k₂ :=
  List.eq_of_perm_of_sorted
    (((sortStrings_perm k₁).trans hp).trans (sortStrings_perm k₂).symm)
    (sortStrings_sorted k₁) (sortStrings_sorted k₂)

theorem regionsToList_names {M : Type} (L : Lib M) (regions : List (String × Region M)) :
    (regionsToList L regions).map RegionEntry.name = sortStrings (regions.map Prod.fst) := by
  unfold regionsToList
  simp only [List.map_map]
  have hid : ∀ l : List String, l.map (RegionEntry.name ∘ fun k =>
      ({ name := k,
         meta := some (L.StringMap (mapGet regions k { Meta := L.emptyMeta }).Meta) } :
        RegionEntry)) = l := by
    intro l
    induction l with
    | nil => rfl
    | cons x xs ih => simp only [List.map_cons, ih, Function.comp]
  exact hid _

theorem regionsToList_perm {M : Type} (L : Lib M) {regs₁ regs₂ : List (String × Region M)}
    (hp : regs₁.Perm regs₂) (hnd : (regs₁.map Prod.fst).Nodup) :
    regionsToList L regs₁ = regionsToList L regs₂ := by
  unfold regionsToList
  simp only
  rw [sortStrings_eq_of_perm (hp.map Prod.fst)]
  apply List.map_congr_left
  intro k _
  simp only [mapGet, lookup_perm k hp hnd]

/-- C5: for every record with a non-empty region map (distinct keys, as in any
Go map), the `regions` list that `recordToResourceData` writes when it returns
nil has exactly one entry per region key (its names are a permutation of the
keys, without repetition), the names are in strictly ascending order, and the
list is the same for every iteration order of the map. -/
theorem regions_written_sorted {M : Type} (L : Lib M) (d : ResourceData) (r : Record M)
    (hne : r.Regions ≠ []) (hnd : (r.Regions.map Prod.fst).Nodup)
    (hok : (recordToResourceData L d r).2 = none) :
    (recordToResourceData L d r).1.regions = regionsToList L r.Regions ∧
    ((regionsToList L r.Regions).map RegionEntry.name).Perm (r.Regions.map Prod.fst) ∧
    ((regionsToList L r.Regions).map RegionEntry.name).Nodup ∧
    (regionsToList L r.Regions).length = r.Regions.length ∧
    ((regionsToList L r.Regions).map RegionEntry.name).Sorted (· < ·) ∧
    (∀ regs' : List (String × Region M), regs'.Perm r.Regions →
      regionsToList L regs' = regionsToList L r.Regions) := by
  have hacc := (recordToResourceData_ok_iff L d r).mp hok
  have hpos : r.Regions.length > 0 := List.length_pos.mpr hne
  have hperm : ((regionsToList L r.Regions).map RegionEntry.name).Perm (r.Regions.map Prod.fst) := by
    rw [regionsToList_names]
    exact sortStrings_perm _
  have hnodup : ((regionsToList L r.Regions).map RegionEntry.name).Nodup :=
    hperm.nodup_iff.mpr hnd
  refine ⟨?_, hperm, hnodup, ?_, ?_, ?_⟩
  · rw [recordToResourceData_accepted L d r hacc]
    simp [writtenState, hpos]
  · have h := hperm.length_eq
    simpa using h
  · have hs : ((regionsToList L r.Regions).map RegionEntry.name).Sorted (· ≤ ·) := by
      rw [regionsToList_names]
      exact sortStrings_sorted _
    exact hs.lt_of_le hnodup
  · intro regs' hp
    exact regionsToList_perm L hp ((hp.map Prod.fst).nodup_iff.mpr hnd)


theorem regions_written_sorted_witness :
    (recordToResourceData exampleLib (baseState "" "" "") updatedRecord).1.regions =
      [{ name := "ny", meta := some [] }, { name := "wa", meta := some [] }] ∧
    regionsToList exampleLib [("ny", ({ Meta := [] } : Region StateMap)), ("wa", { Meta := [] })] =
      regionsToList exampleLib updatedRecord.Regions :=
  ⟨(regions_written_sorted exampleLib (baseState "" "" "") updatedRecord
      (by decide) (by decide) (by decide)).1.trans (by decide),
   (regions_written_sorted exampleLib (baseState "" "" "") updatedRecord
      (by decide) (by decide) (by decide)).2.2.2.2.2 _ (List.Perm.swap _ _ _)⟩


/-! ## Round trip: lemmas -/

theorem stringsJoin_singleton (x sep : String) : stringsJoin [x] sep = x := by
  simp [stringsJoin, List.intercalate]

theorem stringsSplit_join_space (rdata : List String) (hne : rdata ≠ [])
    (hsp : ∀ tok ∈ rdata, ' ' ∉ tok.data) :
    stringsSplit (stringsJoin rdata " ") ' ' = rdata := by
  have h := List.splitOn_intercalate (rdata.map String.data) ' '
    (by
      intro l hl
      obtain ⟨tok, htok, rfl⟩ := List.mem_map.mp hl
      exact hsp tok htok)
    (by simpa using hne)
  have hsep : (" " : String).data = [' '] := rfl
  simp only [stringsSplit, stringsJoin, hsep, h, List.map_map]
  have hid : ∀ l : List String, l.map (String.mk ∘ String.data) = l := by
    intro l
    induction l with
    | nil => rfl
    | cons x xs ih => simp only [List.map_cons, ih, Function.comp]
  exact hid _

theorem rdataOf_join (type : String) (rdata : List String) (h : rdataStable type rdata) :
    rdataOf type (stringsJoin rdata " ") = rdata := by
  unfold rdataStable at h
  unfold rdataOf
  by_cases ht : type = "TXT" ∨ type = "SPF"
  · simp only [ht, if_true] at h ⊢
    match rdata, h with
    | [x], _ => rw [stringsJoin_singleton]
  · simp only [ht, if_false] at h ⊢
    exact stringsSplit_join_space rdata h.1 h.2

theorem answerOfEntry_rdata {M : Type} (L : Lib M) (type : String) (e : AnswerEntry) :
    (answerOfEntry L type e).Rdata = rdataOf type e.answer := by
  unfold answerOfEntry answerFromString rdataOf
  cases e.region <;> cases e.meta <;> split <;> rfl

theorem answer_round_trip {M : Type} (L : Lib M) (type : String) (a : Answer M)
    (h : rdataStable type a.Rdata) :
    answerView (answerOfEntry L type (answerToMap L a)) = answerView a := by
  have hrd : (answerOfEntry L type (answerToMap L a)).Rdata = a.Rdata := by
    rw [answerOfEntry_rdata]
    have hans : (answerToMap L a).answer = stringsJoin a.Rdata " " := by
      unfold answerToMap
      cases a.Meta <;> by_cases hr : a.RegionName = "" <;> simp [hr]
    rw [hans]
    exact rdataOf_join type a.Rdata h
  have hreg : (answerOfEntry L type (answerToMap L a)).RegionName = a.RegionName := by
    unfold answerOfEntry answerToMap answerFromString NewTXTAnswer NewAnswer
    cases a.Meta <;> by_cases hr : a.RegionName = "" <;>
      by_cases ht : type = "TXT" ∨ type = "SPF" <;> simp [hr, ht]
  simp only [answerView, hrd, hreg]

theorem answerToMap_meta {M : Type} (L : Lib M) (a : Answer M) :
    (answerToMap L a).meta = a.Meta.map L.StringMap := by
  unfold answerToMap
  cases a.Meta <;> by_cases hr : a.RegionName = "" <;> simp [hr]

theorem filter_round_trip (f : Filter) : filterView (filterFromMap (filterToMap f)) = filterView f := by
  obtain ⟨typ, disabled, config⟩ := f
  unfold filterView filterFromMap filterToMap
  cases disabled <;> cases config <;> simp


theorem mapGet_mem {β : Type} (l : List (String × β)) (k : String) (zero : β)
    (hk : k ∈ l.map Prod.fst) : ∃ p ∈ l, mapGet l k zero = p.2 := by
  induction l with
  | nil => simp at hk
  | cons x xs ih =>
    obtain ⟨a, b⟩ := x
    cases hka : (k == a) with
    | true =>
      refine ⟨(a, b), List.mem_cons_self _ _, ?_⟩
      simp [mapGet, List.lookup_cons, hka]
    | false =>
      have hne : k ≠ a := by simpa using hka
      have hk' : k ∈ xs.map Prod.fst := by
        simp only [List.map_cons, List.mem_cons] at hk
        rcases hk with h | h
        · exact absurd h hne
        · exact h
      obtain ⟨p, hp, hget⟩ := ih hk'
      refine ⟨p, List.mem_cons_of_mem _ hp, ?_⟩
      simp only [mapGet, List.lookup_cons, hka] at hget ⊢
      exact hget

theorem mapSet_new_key {β : Type} (m : List (String × β)) (k : String) (v : β)
    (hk : k ∉ m.map Prod.fst) : mapSet m k v = m ++ [(k, v)] := by
  unfold mapSet
  have hany : (m.any fun p => p.1 == k) = false := by
    rw [Bool.eq_false_iff]
    intro h
    obtain ⟨p, hp, hpk⟩ := List.any_eq_true.mp h
    have : p.1 = k := by simpa using hpk
    exact hk (this ▸ List.mem_map_of_mem Prod.fst hp)
  simp [hany]

theorem foldl_mapSet_keys {M : Type} (f : RegionEntry → Region M) (gs : List RegionEntry) :
    ∀ m : List (String × Region M),
      (m.map Prod.fst ++ gs.map RegionEntry.name).Nodup →
      (List.foldl (fun m g => mapSet m g.name (f g)) m gs).map Prod.fst =
        m.map Prod.fst ++ gs.map RegionEntry.name := by
  induction gs with
  | nil => intro m _; simp
  | cons g rest ih =>
    intro m hnd
    have hk : g.name ∉ m.map Prod.fst := by
      intro hmem
      have := List.nodup_append.mp hnd
      exact this.2.2 hmem (by simp)
    rw [List.foldl_cons, mapSet_new_key m g.name (f g) hk]
    have hnd' : ((m ++ [(g.name, f g)]).map Prod.fst ++ rest.map RegionEntry.name).Nodup := by
      simpa [List.append_assoc] using hnd
    rw [ih _ hnd']
    simp [List.append_assoc]

theorem regionsToList_errors {M : Type} (L : Lib M) (regions : List (String × Region M))
    (h : ∀ p ∈ regions, L.Validate (L.MetaFromMap (L.StringMap p.2.Meta)) = []) :
    ∀ g ∈ regionsToList L regions, entryErrors L g.meta = [] := by
  intro g hg
  unfold regionsToList at hg
  simp only [List.mem_map] at hg
  obtain ⟨k, hk, rfl⟩ := hg
  have hk' : k ∈ regions.map Prod.fst := (sortStrings_perm _).mem_iff.mp hk
  obtain ⟨p, hp, hget⟩ := mapGet_mem regions k ⟨L.emptyMeta⟩ hk'
  simp only [entryErrors, hget]
  exact h p hp


/-! ## Round trip: theorems -/

/-- C7, as stated, fails: a linked record that also carries an answer is
written to state, but rebuilding it fails with the link/answers error; and a
TXT record whose answer has two rdata tokens is rebuilt with one token. -/
theorem round_trip_counterexample :
    (resourceDataToRecord exampleLib
        (NewRecord exampleLib linkedRecord.Zone linkedRecord.Domain linkedRecord.Typ)
        (recordToResourceData exampleLib (baseState "" "" "") linkedRecord).1).2 =
      some (errorsNew "cannot have both link and answers in a record") ∧
    (resourceDataToRecord exampleLib
        (NewRecord exampleLib twoTokenTxtRecord.Zone twoTokenTxtRecord.Domain
          twoTokenTxtRecord.Typ)
        (recordToResourceData exampleLib (baseState "" "" "") twoTokenTxtRecord).1).2 = none ∧
    (resourceDataToRecord exampleLib
        (NewRecord exampleLib twoTokenTxtRecord.Zone twoTokenTxtRecord.Domain
          twoTokenTxtRecord.Typ)
        (recordToResourceData exampleLib (baseState "" "" "") twoTokenTxtRecord).1).1.Answers.map
          Answer.Rdata = [["v=spf1 -all"]] ∧
    twoTokenTxtRecord.Answers.map Answer.Rdata = [["v=spf1", "-all"]] := by
  decide

/-- C7, amended: for every record that does not have both a link and answers,
whose use-client-subnet flag is set, whose answers' rdata survive joining with a
space (one token for TXT/SPF, else at least one token and none with a space),
whose region map has distinct keys and whose metadata passes validation when
read back, writing it to a fresh state (every `d.Set` accepted) and rebuilding a
record for the same (zone, domain, type) succeeds and gives a record with the
same TTL, link and use-client-subnet flag, the same answers (rdata tokens and
region name, in order), the same filters (type, disabled flag and config, in
order, a nil config read as empty) and the same region names. -/
theorem record_round_trip {M : Type} (L : Lib M) (d0 : ResourceData) (r : Record M)
    (hfresh : freshState d0) (hset : setsAccepted L r) (hrt : roundTrippable L r) :
    ∃ r'', resourceDataToRecord L (NewRecord L r.Zone r.Domain r.Typ)
        (recordToResourceData L d0 r).1 = (r'', none) ∧
      r''.TTL = r.TTL ∧ r''.Link = r.Link ∧ r''.UseClientSubnet = r.UseClientSubnet ∧
      r''.Answers.map answerView = r.Answers.map answerView ∧
      r''.Filters.map filterView = r.Filters.map filterView ∧
      (r''.Regions.map Prod.fst).Perm (r.Regions.map Prod.fst) := by
  obtain ⟨hshort, hans0, hreg0, hfil0, hlink0, hmeta0⟩ := hfresh
  obtain ⟨hexcl, hucs, hrdata, hnd, hameta, hrmeta, hgmeta⟩ := hrt
  rw [recordToResourceData_accepted L d0 r hset]
  -- the fields of the written state that the conversion reads
  have hwa : (writtenState L d0 r).answers = r.Answers.map (answerToMap L) := by
    cases hra : r.Answers with
    | nil => simp [writtenState, hra, hans0]
    | cons x xs => simp [writtenState, hra]
  have hwr : (writtenState L d0 r).regions = regionsToList L r.Regions := by
    cases hrr : r.Regions with
    | nil => simp [writtenState, hrr, hreg0, regionsToList, sortStrings]
    | cons x xs => simp [writtenState, hrr]
  have hwf : (writtenState L d0 r).filters = r.Filters.map filterToMap := by
    cases hrf : r.Filters with
    | nil => simp [writtenState, hrf, hfil0]
    | cons x xs => simp [writtenState, hrf]
  have hwl : (writtenState L d0 r).link = r.Link := by
    by_cases hl : r.Link = "" <;> simp [writtenState, hl, hlink0]
  have hwm : (writtenState L d0 r).meta = recordMetaMap L r := by
    unfold writtenState recordMetaMap
    cases r.Meta <;> simp [hmeta0]
  have hws : (writtenState L d0 r).short_answers = [] := hshort
  have hwt : (writtenState L d0 r).type = r.Typ := rfl
  have hwttl : (writtenState L d0 r).ttl = r.TTL := rfl
  have hwu : some (writtenState L d0 r).use_client_subnet = r.UseClientSubnet := by
    unfold writtenState
    cases hu : r.UseClientSubnet with
    | none => exact absurd hu hucs
    | some b => rfl
  have hbuilt : builtAnswers L (writtenState L d0 r) =
      (r.Answers.map (answerToMap L)).map (answerOfEntry L r.Typ) := by
    simp [builtAnswers, hws, hwa, hwt]
  have hconv : conversionOk L (NewRecord L r.Zone r.Domain r.Typ) (writtenState L d0 r) := by
    refine ⟨?_, ?_, ?_, ?_⟩
    · intro a ha
      rw [hwa] at ha
      obtain ⟨x, hx, rfl⟩ := List.mem_map.mp ha
      rw [answerToMap_meta]
      exact hameta x hx
    · intro hl
      rw [hwl] at hl
      have hno : r.Answers = [] := by
        by_contra hne
        exact hexcl ⟨hl, hne⟩
      rw [hbuilt, hno]
      rfl
    · intro hm
      rw [hwm] at hm ⊢
      exact hrmeta hm
    · rw [hwr]
      exact regionsToList_errors L r.Regions hgmeta
  refine ⟨convertedRecord L (NewRecord L r.Zone r.Domain r.Typ) (writtenState L d0 r),
    (resourceDataToRecord_ok_iff L _ _ _).mpr ⟨hconv, rfl⟩, ?_, ?_, ?_, ?_, ?_, ?_⟩
  · by_cases ht : r.TTL = 0 <;> simp [convertedRecord, hwttl, ht, NewRecord]
  · by_cases hl : r.Link = "" <;> simp [convertedRecord, hwl, hl, NewRecord]
  · simp only [convertedRecord, hwu]
  · simp only [convertedRecord, hwl, hbuilt]
    by_cases hl : r.Link = ""
    · simp only [hl, ne_eq, not_true_eq_false, if_false, NewRecord, List.nil_append,
        List.map_map]
      apply List.map_congr_left
      intro a ha
      exact answer_round_trip L r.Typ a (hrdata a ha)
    · have hno : r.Answers = [] := by
        by_contra hne
        exact hexcl ⟨hl, hne⟩
      simp [hl, hno]
  · simp only [convertedRecord, hwf]
    cases hrf : r.Filters with
    | nil => simp [NewRecord]
    | cons x xs =>
      simp only [List.length_map, List.length_cons, gt_iff_lt, Nat.zero_lt_succ, if_true,
        List.map_map]
      apply List.map_congr_left
      intro f _
      exact filter_round_trip f
  · simp only [convertedRecord, hwr]
    have hnames : ((regionsToList L r.Regions).map RegionEntry.name).Nodup := by
      rw [regionsToList_names]
      exact (sortStrings_perm _).nodup_iff.mpr hnd
    have hkeys := foldl_mapSet_keys (regionOfEntry L) (regionsToList L r.Regions)
      (NewRecord L r.Zone r.Domain r.Typ).Regions (by simpa [NewRecord] using hnames)
    rw [hkeys, regionsToList_names]
    simpa [NewRecord] using sortStrings_perm (r.Regions.map Prod.fst)

theorem record_round_trip_witness :
    ∃ r'', resourceDataToRecord exampleLib
        (NewRecord exampleLib basicRecord.Zone basicRecord.Domain basicRecord.Typ)
        (recordToResourceData exampleLib (baseState "" "" "") basicRecord).1 = (r'', none) ∧
      r''.TTL = basicRecord.TTL ∧ r''.Link = basicRecord.Link ∧
      r''.UseClientSubnet = basicRecord.UseClientSubnet ∧
      r''.Answers.map answerView = basicRecord.Answers.map answerView ∧
      r''.Filters.map filterView = basicRecord.Filters.map filterView ∧
      (r''.Regions.map Prod.fst).Perm (basicRecord.Regions.map Prod.fst) :=
  record_round_trip exampleLib (baseState "" "" "") basicRecord
    (by unfold freshState; decide)
    (by unfold setsAccepted; decide)
    (by unfold roundTrippable rdataStable; decide)

/-! ## Validation before submission, delete, zone data source: theorems -/

/-- C11: when `resourceDataToRecord` fails on the state, `RecordCreate` and
`RecordUpdate` return that error, make no call on the REST client and leave the
state as it was; when the conversion succeeds they make exactly one call,
`Records.Create` (respectively `Records.Update`) with the converted record. -/
theorem validation_precedes_submission {M : Type} (L : Lib M) (d : ResourceData)
    (client : Client M) :
    (∀ (r : Record M) (e : GoError),
      resourceDataToRecord L (NewRecord L d.zone d.domain d.type) d = (r, some e) →
      ((RecordCreate L d client).err = some e ∧ (RecordCreate L d client).calls = [] ∧
        (RecordCreate L d client).state = d) ∧
      ((RecordUpdate L d client).err = some e ∧ (RecordUpdate L d client).calls = [] ∧
        (RecordUpdate L d client).state = d)) ∧
    (∀ r : Record M,
      resourceDataToRecord L (NewRecord L d.zone d.domain d.type) d = (r, none) →
      (RecordCreate L d client).calls = [Call.RecordsCreate r] ∧
      (RecordUpdate L d client).calls = [Call.RecordsUpdate r]) := by
  constructor
  · intro r e h
    simp [RecordCreate, RecordUpdate, h]
  · intro r h
    constructor
    · simp only [RecordCreate, h]
      cases client.RecordsCreate r <;> rfl
    · simp only [RecordUpdate, h]
      cases client.RecordsUpdate r <;> rfl

theorem validation_precedes_submission_witness :
    (((RecordCreate exampleLib linkedState (echoClient StateMap basicRecord secondaryZone)).err =
          some (errorsNew "cannot have both link and answers in a record") ∧
        (RecordCreate exampleLib linkedState (echoClient StateMap basicRecord secondaryZone)).calls
          = [] ∧
        (RecordCreate exampleLib linkedState (echoClient StateMap basicRecord secondaryZone)).state
          = linkedState) ∧
      ((RecordUpdate exampleLib linkedState (echoClient StateMap basicRecord secondaryZone)).err =
          some (errorsNew "cannot have both link and answers in a record") ∧
        (RecordUpdate exampleLib linkedState (echoClient StateMap basicRecord secondaryZone)).calls
          = [] ∧
        (RecordUpdate exampleLib linkedState (echoClient StateMap basicRecord secondaryZone)).state
          = linkedState)) ∧
    ((RecordCreate exampleLib basicState (echoClient StateMap basicRecord secondaryZone)).calls =
        [Call.RecordsCreate (resourceDataToRecord exampleLib
          (NewRecord exampleLib basicState.zone basicState.domain basicState.type)
          basicState).1] ∧
      (RecordUpdate exampleLib basicState (echoClient StateMap basicRecord secondaryZone)).calls =
        [Call.RecordsUpdate (resourceDataToRecord exampleLib
          (NewRecord exampleLib basicState.zone basicState.domain basicState.type)
          basicState).1]) :=
  ⟨(validation_precedes_submission exampleLib linkedState
      (echoClient StateMap basicRecord secondaryZone)).1
      (resourceDataToRecord exampleLib
        (NewRecord exampleLib linkedState.zone linkedState.domain linkedState.type)
        linkedState).1
      (errorsNew "cannot have both link and answers in a record") (by decide),
   (validation_precedes_submission exampleLib basicState
      (echoClient StateMap basicRecord secondaryZone)).2
      (resourceDataToRecord exampleLib
        (NewRecord exampleLib basicState.zone basicState.domain basicState.type)
        basicState).1 (by decide)⟩

/-- C14: `RecordDelete` makes exactly one `Records.Delete` call, keyed by the
state's zone, domain and type, returns whatever that call returned, and leaves
the state with the ID set to the empty string and every other field unchanged,
whether or not the call returned an error. -/
theorem recordDelete_clears_id {M : Type} (d : ResourceData) (client : Client M) :
    (RecordDelete d client).state.id = "" ∧
    (RecordDelete d client).state = { d with id := "" } ∧
    (RecordDelete d client).calls = [Call.RecordsDelete d.zone d.domain d.type] ∧
    (RecordDelete d client).err = client.RecordsDelete d.zone d.domain d.type ∧
    (∀ e : GoError, client.RecordsDelete d.zone d.domain d.type = some e →
      (RecordDelete d client).state.id = "" ∧ (RecordDelete d client).err = some e) := by
  refine ⟨rfl, rfl, rfl, rfl, ?_⟩
  intro e h
  exact ⟨rfl, h⟩

theorem recordDelete_clears_id_witness :
    (RecordDelete { basicState with id := "5a1a" }
        (failingClient StateMap ⟨"503 unavailable"⟩)).state.id = "" ∧
    (RecordDelete { basicState with id := "5a1a" }
        (failingClient StateMap ⟨"503 unavailable"⟩)).err = some ⟨"503 unavailable"⟩ :=
  (recordDelete_clears_id { basicState with id := "5a1a" }
    (failingClient StateMap ⟨"503 unavailable"⟩)).2.2.2.2 ⟨"503 unavailable"⟩ rfl

/-! ## `errJoin`: theorems -/

theorem errJoinBuffer_eq (e0 : GoError) (rest : List GoError) (sep : String) :
    errJoinBuffer e0 rest sep =
      (e0.Error.data.length + (joinTail sep.data rest).length,
        e0.Error.data ++ joinTail sep.data rest,
        e0.Error.data.length + (joinTail sep.data rest).length) := by
  unfold errJoinBuffer
  simp only [errJoin_buffer_size]
  have h0 := copy_into_zeros [] e0.Error.data
    (e0.Error.data.length + (joinTail sep.data rest).length) (Char.ofNat 0) (by omega)
  simp only [List.nil_append, List.length_nil] at h0
  simp only [h0]
  have h1 := errJoin_loop sep.data (Char.ofNat 0) rest e0.Error.data
    (e0.Error.data.length + (joinTail sep.data rest).length - e0.Error.data.length) (by omega)
  simp only [h1]
  simp

theorem stringsJoin_cons_eq (e0 : GoError) (rest : List GoError) (sep : String) :
    stringsJoin ((e0 :: rest).map GoError.Error) sep =
      String.mk (e0.Error.data ++ joinTail sep.data rest) := by
  simp only [stringsJoin, List.map_cons, intercalate_cons_eq, joinTail, List.map_map]
  rfl

theorem stringsJoin_eq_concatWithSep (sep : String) (msgs : List String) :
    stringsJoin msgs sep = concatWithSep sep msgs := by
  induction msgs with
  | nil => rfl
  | cons x xs ih =>
    cases xs with
    | nil => simp [concatWithSep, stringsJoin_singleton]
    | cons y ys =>
      rw [concatWithSep, ← ih]
      apply String.ext
      simp only [stringsJoin, List.map_cons, intercalate_cons_eq, String.data_append,
        List.flatten_cons, List.append_assoc]

/-- C12: `errJoin` returns nil for the empty list and the sole element itself
for a one-element list; for two or more errors it returns an error whose message
is the elements' messages concatenated in order with `sep` between consecutive
ones.  The general byte-buffer path writes exactly the `n` bytes it reserved
(`bp = n = len(b)`), the buffer being that same concatenation, and the special
cases for two and three errors give the message of the general path. -/
theorem errJoin_joins (sep : String) :
    errJoin [] sep = none ∧
    (∀ e : GoError, errJoin [e] sep = some e) ∧
    (∀ (e0 e1 : GoError) (rest : List GoError),
      ∃ j, errJoin (e0 :: e1 :: rest) sep = some j ∧
        j.Error = concatWithSep sep ((e0 :: e1 :: rest).map GoError.Error)) ∧
    (∀ (e0 : GoError) (rest : List GoError),
      (errJoinBuffer e0 rest sep).2.2 = (errJoinBuffer e0 rest sep).1 ∧
      (errJoinBuffer e0 rest sep).2.1.length = (errJoinBuffer e0 rest sep).1 ∧
      String.mk (errJoinBuffer e0 rest sep).2.1 =
        concatWithSep sep ((e0 :: rest).map GoError.Error)) ∧
    (∀ e0 e1 : GoError,
      errJoin [e0, e1] sep = some (errorsNew (String.mk (errJoinBuffer e0 [e1] sep).2.1))) ∧
    (∀ e0 e1 e2 : GoError,
      errJoin [e0, e1, e2] sep =
        some (errorsNew (String.mk (errJoinBuffer e0 [e1, e2] sep).2.1))) ∧
    (∀ (e0 e1 e2 e3 : GoError) (rest : List GoError),
      errJoin (e0 :: e1 :: e2 :: e3 :: rest) sep =
        some (errorsNew (String.mk (errJoinBuffer e0 (e1 :: e2 :: e3 :: rest) sep).2.1))) ∧
    errJoin [⟨"a"⟩, ⟨"bc"⟩, ⟨""⟩, ⟨"d"⟩, ⟨"ef"⟩] ", " = some ⟨"a, bc, , d, ef"⟩ := by
  have hbuf : ∀ (e0 : GoError) (rest : List GoError),
      String.mk (errJoinBuffer e0 rest sep).2.1 =
        stringsJoin ((e0 :: rest).map GoError.Error) sep := by
    intro e0 rest
    rw [errJoinBuffer_eq, stringsJoin_cons_eq]
  have hmsg : ∀ (e0 : GoError) (rest : List GoError) (j : GoError),
      errJoin (e0 :: rest) sep = some j →
        j.Error = String.mk (errJoinBuffer e0 rest sep).2.1 := by
    intro e0 rest j hj
    obtain ⟨j', hj', hm⟩ := errJoin_message e0 rest sep
    rw [hj'] at hj
    cases hj
    rw [hm, hbuf]
  refine ⟨rfl, fun e => rfl, ?_, ?_, ?_, ?_, ?_, by decide⟩
  · intro e0 e1 rest
    obtain ⟨j, hj, hm⟩ := errJoin_message e0 (e1 :: rest) sep
    exact ⟨j, hj, by rw [hm, stringsJoin_eq_concatWithSep]⟩
  · intro e0 rest
    refine ⟨?_, ?_, ?_⟩
    · rw [errJoinBuffer_eq]
    · rw [errJoinBuffer_eq]
      simp
    · rw [hbuf, stringsJoin_eq_concatWithSep]
  · intro e0 e1
    have h : errJoin [e0, e1] sep = some (errorsNew (e0.Error ++ sep ++ e1.Error)) := rfl
    rw [h, ← hmsg e0 [e1] _ h]
    rfl
  · intro e0 e1 e2
    have h : errJoin [e0, e1, e2] sep =
        some (errorsNew (e0.Error ++ sep ++ e1.Error ++ sep ++ e2.Error)) := rfl
    rw [h, ← hmsg e0 [e1, e2] _ h]
    rfl
  · intro e0 e1 e2 e3 rest
    obtain ⟨j, hj, _⟩ := errJoin_message e0 (e1 :: e2 :: e3 :: rest) sep
    rw [hj, ← hmsg e0 _ j hj]
    rfl

/-! ## Answer strings: theorems -/

theorem stringsJoin_split_space (v : String) : stringsJoin (stringsSplit v ' ') " " = v := by
  have hsep : (" " : String).data = [' '] := rfl
  have hid : ∀ l : List (List Char), (l.map String.mk).map String.data = l := by
    intro l
    induction l with
    | nil => rfl
    | cons x xs ih => simp only [List.map_cons, ih]
  simp only [stringsJoin, stringsSplit, hsep, hid, List.intercalate_splitOn]

theorem count_joinChars (c : Char) (x : List Char) (xs : List (List Char)) :
    (x ++ (xs.map (fun y => [c] ++ y)).flatten).count c =
      xs.length + ((x :: xs).map (List.count c)).sum := by
  induction xs with
  | nil => simp
  | cons y ys ih =>
    simp only [List.map_cons, List.flatten_cons, List.count_append, List.sum_cons,
      List.length_cons] at ih ⊢
    have hc : List.count c [c] = 1 := by simp
    rw [hc]
    omega

theorem count_zero_of_sum_zero (c : Char) (l : List (List Char))
    (h : (l.map (List.count c)).sum = 0) : ∀ x ∈ l, c ∉ x := by
  induction l with
  | nil => intro x hx; simp at hx
  | cons y ys ih =>
    simp only [List.map_cons, List.sum_cons] at h
    intro x hx
    rcases List.mem_cons.mp hx with rfl | hx'
    · exact List.count_eq_zero.mp (by omega)
    · exact ih (by omega) x hx'

theorem split_join_fixed_iff (rdata : List String) :
    stringsSplit (stringsJoin rdata " ") ' ' = rdata ↔
      rdata ≠ [] ∧ ∀ tok ∈ rdata, ' ' ∉ tok.data := by
  constructor
  · intro h
    have hlen := stringsSplit_length (stringsJoin rdata " ") ' '
    rw [h] at hlen
    cases hr : rdata with
    | nil => rw [hr] at hlen; simp at hlen
    | cons x xs =>
      refine ⟨by simp, ?_⟩
      rw [hr] at hlen
      have hsep : (" " : String).data = [' '] := rfl
      have hcount : countByte (stringsJoin (x :: xs) " ") ' ' =
          xs.length + (((x :: xs).map String.data).map (List.count ' ')).sum := by
        simp only [countByte, stringsJoin, List.map_cons, intercalate_cons_eq, hsep]
        have := count_joinChars ' ' x.data (xs.map String.data)
        simpa using this
      rw [hcount] at hlen
      simp only [List.length_cons] at hlen
      have hzero : (((x :: xs).map String.data).map (List.count ' ')).sum = 0 := by omega
      intro tok htok
      exact count_zero_of_sum_zero ' ' _ hzero tok.data (List.mem_map_of_mem _ htok)
  · rintro ⟨hne, hsp⟩
    exact stringsSplit_join_space rdata hne hsp

/-- C13: for every answer string `v` and record type, the answer that
`resourceDataToRecord` builds from `v` is serialised by `answerToMap` with
`answer` equal to `v`.  In the other direction, for a type other than TXT and
SPF, joining rdata and converting the string back gives the original rdata
exactly when the rdata is non-empty and no token contains a space. -/
theorem answer_string_stable {M : Type} (L : Lib M) (type : String) :
    (∀ v : String, (answerToMap L (answerFromString L type v)).answer = v) ∧
    (∀ e : AnswerEntry, (answerToMap L (answerOfEntry L type e)).answer = e.answer) ∧
    (¬ (type = "TXT" ∨ type = "SPF") → ∀ rdata : List String,
      ((answerFromString L type (answerToMap L (NewAnswer L rdata)).answer).Rdata = rdata ↔
        rdata ≠ [] ∧ ∀ tok ∈ rdata, ' ' ∉ tok.data)) := by
  have hjoin : ∀ a : Answer M, (answerToMap L a).answer = stringsJoin a.Rdata " " := by
    intro a
    unfold answerToMap
    cases a.Meta <;> by_cases hr : a.RegionName = "" <;> simp [hr]
  have hrd : ∀ v : String, stringsJoin (rdataOf type v) " " = v := by
    intro v
    unfold rdataOf
    split
    · exact stringsJoin_singleton v " "
    · exact stringsJoin_split_space v
  have hfs : ∀ v : String, (answerFromString L type v).Rdata = rdataOf type v := by
    intro v
    unfold answerFromString rdataOf
    split <;> rfl
  refine ⟨?_, ?_, ?_⟩
  · intro v
    rw [hjoin, hfs, hrd]
  · intro e
    rw [hjoin, answerOfEntry_rdata, hrd]
  · intro ht rdata
    rw [hjoin, hfs]
    have hr : (NewAnswer L rdata).Rdata = rdata := rfl
    rw [hr]
    unfold rdataOf
    simp only [ht, if_false]
    exact split_join_fixed_iff rdata

theorem answer_string_stable_witness :
    ((answerFromString exampleLib "SRV"
        (answerToMap exampleLib (NewAnswer exampleLib ["10", "0", "2380", "node-1.example.io"])).answer).Rdata
        = ["10", "0", "2380", "node-1.example.io"] ↔
      (["10", "0", "2380", "node-1.example.io"] : List String) ≠ [] ∧
        ∀ tok ∈ (["10", "0", "2380", "node-1.example.io"] : List String), ' ' ∉ tok.data) ∧
    ((answerFromString exampleLib "MX"
        (answerToMap exampleLib (NewAnswer exampleLib ["10 mail.example.io"])).answer).Rdata
        = ["10 mail.example.io"] ↔
      (["10 mail.example.io"] : List String) ≠ [] ∧
        ∀ tok ∈ (["10 mail.example.io"] : List String), ' ' ∉ tok.data) :=
  ⟨(answer_string_stable exampleLib "SRV").2.2 (by decide) _,
   (answer_string_stable exampleLib "MX").2.2 (by decide) _⟩

/-! ## Filter chain: theorems -/

theorem regionsLoop_filters {M : Type} (L : Lib M) (gs : List RegionEntry) :
    ∀ r : Record M,
      (∀ r', regionsLoop L r gs = .ok r' → r'.Filters = r.Filters) ∧
      (∀ ret, regionsLoop L r gs = .error ret → ret.1.Filters = r.Filters) := by
  induction gs with
  | nil =>
    intro r
    constructor
    · intro r' h
      simp only [regionsLoop] at h
      cases h
      rfl
    · intro ret h
      simp [regionsLoop] at h
  | cons g rest ih =>
    intro r
    cases hm : g.meta with
    | none =>
      have hstep : regionsLoop L r (g :: rest) =
          regionsLoop L { r with Regions := mapSet r.Regions g.name ⟨L.emptyMeta⟩ } rest := by
        simp [regionsLoop, hm]
      rw [hstep]
      exact ih _
    | some v =>
      by_cases hv : (L.Validate (L.MetaFromMap v)).length > 0
      · have hstep : regionsLoop L r (g :: rest) =
            returnJoined r "found error/s in region/group metadata"
              (L.Validate (L.MetaFromMap v)) := by
          simp [regionsLoop, hm, hv]
        rw [hstep]
        constructor
        · intro r' h
          simp [returnJoined] at h
        · intro ret h
          simp only [returnJoined] at h
          cases h
          rfl
      · have hstep : regionsLoop L r (g :: rest) =
            regionsLoop L { r with Regions := mapSet r.Regions g.name ⟨L.MetaFromMap v⟩ }
              rest := by
          simp [regionsLoop, hm, hv]
        rw [hstep]
        exact ih _

theorem tailSteps_filters {M : Type} (L : Lib M) (d : ResourceData) (r : Record M) :
    (match tailSteps L d r with
      | .ok r' => (r', (none : Option GoError))
      | .error ret => ret).1.Filters =
      if d.filters.length > 0 then d.filters.map filterFromMap else r.Filters := by
  unfold tailSteps
  simp only
  generalize hr1 : (if d.filters.length > 0 then
      { ({ r with UseClientSubnet := some d.use_client_subnet } : Record M) with
        Filters := d.filters.map filterFromMap }
    else { r with UseClientSubnet := some d.use_client_subnet }) = r1
  have hr1f : r1.Filters =
      if d.filters.length > 0 then d.filters.map filterFromMap else r.Filters := by
    rw [← hr1]
    split <;> rfl
  rw [← hr1f]
  by_cases hg : d.regions.length > 0
  · simp only [hg, if_true]
    obtain ⟨hok, herr⟩ := regionsLoop_filters L d.regions r1
    cases hres : regionsLoop L r1 d.regions with
    | ok r' => exact hok r' hres
    | error ret => exact herr ret hres
  · simp only [hg, if_false]

theorem resourceDataToRecord_filters {M : Type} (L : Lib M) (r : Record M) (d : ResourceData)
    (hreach : reachesFilters L r d) :
    (resourceDataToRecord L r d).1.Filters =
      if d.filters.length > 0 then d.filters.map filterFromMap else r.Filters := by
  obtain ⟨hv, hl, hm⟩ := hreach
  unfold resourceDataToRecord
  rw [afterShort_answers L d r hv]
  simp only [afterAnswers]
  generalize hr2 : (if d.ttl ≠ 0 then
    { ({ afterShort L d r with Answers := r.Answers ++ builtAnswers L d } : Record M) with
      TTL := d.ttl }
    else { afterShort L d r with Answers := r.Answers ++ builtAnswers L d }) = r2
  have hr2a : r2.Answers = r.Answers ++ builtAnswers L d := by
    rw [← hr2]; split <;> rfl
  have hr2f : r2.Filters = r.Filters := by
    rw [← hr2]; split <;> rfl
  rcases linkStep_cases d r2 with ⟨hl', ha, _⟩ | ⟨_, hstep⟩
  · exact absurd (hl hl') (hr2a ▸ ha)
  · rw [hstep]
    simp only [Except.bind]
    generalize hr3 : (if d.link ≠ "" then r2.LinkTo d.link else r2) = r3
    have hr3f : r3.Filters = r.Filters := by
      rw [← hr3, ← hr2f]; split <;> rfl
    rcases metaStep_cases L d r3 with ⟨hm', hmv, _⟩ | ⟨_, hstep⟩
    · exact absurd (hm hm') hmv
    · rw [hstep]
      simp only [Except.bind]
      generalize hr4 :
        (if d.meta ≠ [] then { r3 with Meta := some (L.MetaFromMap d.meta) } else r3) = r4
      have hr4f : r4.Filters = r.Filters := by
        rw [← hr4, ← hr3f]; split <;> rfl
      rw [tailSteps_filters, hr4f]

/-- C8, as stated, fails: with three filters in state and a return before the
`filters` step (a link together with an answer, or answer metadata that does
not validate), the record left by `resourceDataToRecord` has no filters. -/
theorem filters_not_built_counterexample :
    linkedFiltersState.filters.length = 3 ∧
    (resourceDataToRecord exampleLib (NewRecord exampleLib "example.io" "test.example.io"
        "CNAME") linkedFiltersState).2 =
      some (errorsNew "cannot have both link and answers in a record") ∧
    (resourceDataToRecord exampleLib (NewRecord exampleLib "example.io" "test.example.io"
        "CNAME") linkedFiltersState).1.Filters = [] ∧
    invalidAnswerFiltersState.filters.length = 3 ∧
    (resourceDataToRecord exampleLib (NewRecord exampleLib "example.io" "test.example.io"
        "CNAME") invalidAnswerFiltersState).2 =
      some (errorsNew "found error/s in answer metadata,invalid value for weight") ∧
    (resourceDataToRecord exampleLib (NewRecord exampleLib "example.io" "test.example.io"
        "CNAME") invalidAnswerFiltersState).1.Filters = [] := by
  decide

/-- C8, amended: for every state with a non-empty `filters` list on which
`resourceDataToRecord` gets as far as the filters step (no return from the
answers loop, the link guard or the record metadata check; so on every
successful conversion, and also when only the later regions loop fails), the
record it leaves has one filter per state element, in the same order, with the
element's type, disabled flag and config (false and the empty map when the key
is absent); and `recordToResourceData` on that record writes back a `filters`
list of the same length with the same filter types at the same positions. -/
theorem filters_round_trip {M : Type} (L : Lib M) (r : Record M) (d d0 : ResourceData)
    (hne : d.filters ≠ []) (hreach : reachesFilters L r d) :
    (resourceDataToRecord L r d).1.Filters.length = d.filters.length ∧
    (resourceDataToRecord L r d).1.Filters = d.filters.map filterFromMap ∧
    (∀ fi : FilterEntry, (filterFromMap fi).Typ = fi.filter ∧
      (filterFromMap fi).Disabled = fi.disabled.getD false ∧
      (filterFromMap fi).Config = some (fi.config.getD [])) ∧
    (recordToResourceData L d0 (resourceDataToRecord L r d).1).1.filters.length =
      d.filters.length ∧
    (recordToResourceData L d0 (resourceDataToRecord L r d).1).1.filters.map
      FilterEntry.filter = d.filters.map FilterEntry.filter ∧
    (∀ (d' : ResourceData) (r' : Record M),
      resourceDataToRecord L r d' = (r', none) → reachesFilters L r d') := by
  have hpos : d.filters.length > 0 := List.length_pos.mpr hne
  have hf : (resourceDataToRecord L r d).1.Filters = d.filters.map filterFromMap := by
    rw [resourceDataToRecord_filters L r d hreach]
    simp [hpos]
  have hfilt : ∀ fi : FilterEntry, (filterFromMap fi).Typ = fi.filter ∧
      (filterFromMap fi).Disabled = fi.disabled.getD false ∧
      (filterFromMap fi).Config = some (fi.config.getD []) := by
    intro fi
    unfold filterFromMap
    cases fi.disabled <;> cases fi.config <;> simp
  have hpos' : (resourceDataToRecord L r d).1.Filters.length > 0 := by
    rw [hf]; simpa using hpos
  have hback : (recordToResourceData L d0 (resourceDataToRecord L r d).1).1.filters =
      (resourceDataToRecord L r d).1.Filters.map filterToMap := by
    rw [recordToResourceData_filters]
    simp [hpos']
  have htyp : ∀ f : Filter, (filterToMap f).filter = f.Typ := by
    intro f
    unfold filterToMap
    cases f.Config <;> cases f.Disabled <;> simp
  refine ⟨by rw [hf]; simp, hf, hfilt, by rw [hback, hf]; simp, ?_, ?_⟩
  · rw [hback, hf]
    simp only [List.map_map]
    apply List.map_congr_left
    intro fi _
    simp only [Function.comp, htyp]
    exact (hfilt fi).1
  · intro d' r' hok
    obtain ⟨⟨h1, h2, h3, _⟩, _⟩ := (resourceDataToRecord_ok_iff L r r' d').mp hok
    exact ⟨h1, h2, h3⟩

theorem filters_round_trip_witness :
    ((resourceDataToRecord exampleLib (NewRecord exampleLib "example.io" "test.example.io"
        "CNAME") basicState).1.Filters =
      [{ Typ := "up", Disabled := false, Config := some [] },
       { Typ := "geotarget_country", Disabled := false, Config := some [] },
       { Typ := "select_first_n", Disabled := false, Config := some [("N", "1")] }] ∧
    (recordToResourceData exampleLib (baseState "" "" "")
        (resourceDataToRecord exampleLib (NewRecord exampleLib "example.io" "test.example.io"
          "CNAME") basicState).1).1.filters.map FilterEntry.filter =
      ["up", "geotarget_country", "select_first_n"]) ∧
    ((resourceDataToRecord exampleLib (NewRecord exampleLib "example.io" "test.example.io"
        "CNAME") invalidRegionFiltersState).2 =
      some (errorsNew "found error/s in region/group metadata,invalid value for up") ∧
    (resourceDataToRecord exampleLib (NewRecord exampleLib "example.io" "test.example.io"
        "CNAME") invalidRegionFiltersState).1.Filters.length =
      invalidRegionFiltersState.filters.length) :=
  ⟨⟨(filters_round_trip exampleLib (NewRecord exampleLib "example.io" "test.example.io" "CNAME")
      basicState (baseState "" "" "") (by decide)
      (by unfold reachesFilters; decide)).2.1.trans (by decide),
    (filters_round_trip exampleLib (NewRecord exampleLib "example.io" "test.example.io" "CNAME")
      basicState (baseState "" "" "") (by decide)
      (by unfold reachesFilters; decide)).2.2.2.2.1.trans (by decide)⟩,
   ⟨by decide,
    (filters_round_trip exampleLib (NewRecord exampleLib "example.io" "test.example.io" "CNAME")
      invalidRegionFiltersState (baseState "" "" "") (by decide)
      (by unfold reachesFilters; decide)).1⟩⟩

/-! ## Zone data source: theorems -/

/-- C15: `dataSourceZoneToResourceData` always sets the ID, hostmaster, ttl,
nx_ttl, refresh, retry, expiry, networks (as a set) and link from the zone and
`dns_servers` to the zone's DNS server names joined with "," in order.  It
sets `primary` and `additional_primaries` from `z.Secondary` when that is
present and enabled and leaves them as they were otherwise.  It calls `d.Set`
for `secondaries` only when `z.Primary` is present and enabled: otherwise the
field is left as it was, so a changed `secondaries` implies an enabled primary;
when the call is made the field holds what the host runtime stored, or its old
value when the runtime refused the value.  `zone` is never written. -/
theorem zone_fields_written (H : ZoneHost) (d : ZoneResourceData) (z : Zone) :
    (dataSourceZoneToResourceData H d z).id = z.ID ∧
    (dataSourceZoneToResourceData H d z).hostmaster = z.Hostmaster ∧
    (dataSourceZoneToResourceData H d z).ttl = z.TTL ∧
    (dataSourceZoneToResourceData H d z).nx_ttl = z.NxTTL ∧
    (dataSourceZoneToResourceData H d z).refresh = z.Refresh ∧
    (dataSourceZoneToResourceData H d z).retry = z.Retry ∧
    (dataSourceZoneToResourceData H d z).expiry = z.Expiry ∧
    (dataSourceZoneToResourceData H d z).networks = z.NetworkIDs.toFinset ∧
    (dataSourceZoneToResourceData H d z).link = z.Link ∧
    (dataSourceZoneToResourceData H d z).dns_servers = stringsJoin z.DNSServers "," ∧
    (dataSourceZoneToResourceData H d z).zone = d.zone ∧
    (∀ sec : ZoneSecondary, z.Secondary = some sec → sec.Enabled = true →
      (dataSourceZoneToResourceData H d z).primary = sec.PrimaryIP ∧
      (dataSourceZoneToResourceData H d z).additional_primaries = sec.OtherIPs) ∧
    ((¬ ∃ sec : ZoneSecondary, z.Secondary = some sec ∧ sec.Enabled = true) →
      (dataSourceZoneToResourceData H d z).primary = d.primary ∧
      (dataSourceZoneToResourceData H d z).additional_primaries = d.additional_primaries) ∧
    ((¬ ∃ pri : ZonePrimary, z.Primary = some pri ∧ pri.Enabled = true) →
      (dataSourceZoneToResourceData H d z).secondaries = d.secondaries) ∧
    ((dataSourceZoneToResourceData H d z).secondaries ≠ d.secondaries →
      ∃ pri : ZonePrimary, z.Primary = some pri ∧ pri.Enabled = true) ∧
    (∀ pri : ZonePrimary, z.Primary = some pri → pri.Enabled = true →
      (dataSourceZoneToResourceData H d z).secondaries =
        (H.setSecondaries pri.Secondaries).getD d.secondaries) := by
  obtain ⟨zid, zhm, zttl, znx, zref, zret, zexp, znet, zdns, zlink, zpri, zsec⟩ := z
  unfold dataSourceZoneToResourceData
  rcases zsec with _ | ⟨secEnabled, secIP, secOther⟩ <;>
    rcases zpri with _ | ⟨priEnabled, priSecs⟩
  · simp
  · rcases hset : H.setSecondaries priSecs with _ | stored <;> cases priEnabled <;>
      simp [hset]
  · cases secEnabled <;> simp
  · rcases hset : H.setSecondaries priSecs with _ | stored <;> cases secEnabled <;>
      cases priEnabled <;> simp [hset]

theorem zone_fields_written_witness :
    ((dataSourceZoneToResourceData exampleHost (baseZoneState "example.io")
        secondaryZone).primary = "1.1.1.1" ∧
      (dataSourceZoneToResourceData exampleHost (baseZoneState "example.io")
        secondaryZone).additional_primaries = ["2.2.2.2"]) ∧
    (dataSourceZoneToResourceData exampleHost (baseZoneState "example.io")
        secondaryZone).secondaries = (baseZoneState "example.io").secondaries ∧
    (dataSourceZoneToResourceData exampleHost priorZoneState primaryZone).secondaries =
      priorZoneState.secondaries ∧
    (dataSourceZoneToResourceData exampleHost priorZoneState primaryAloneZone).secondaries =
      ∅ ∧
    (dataSourceZoneToResourceData exampleHost priorZoneState primaryZone).networks =
      {0, 1} ∧
    (dataSourceZoneToResourceData exampleHost priorZoneState primaryZone).dns_servers =
      "dns1.p01.nsone.net,dns2.p01.nsone.net" :=
  ⟨(zone_fields_written exampleHost (baseZoneState "example.io")
      secondaryZone).2.2.2.2.2.2.2.2.2.2.2.1
      { Enabled := true, PrimaryIP := "1.1.1.1", OtherIPs := ["2.2.2.2"] } rfl rfl,
   (zone_fields_written exampleHost (baseZoneState "example.io")
      secondaryZone).2.2.2.2.2.2.2.2.2.2.2.2.2.1 (by decide),
   ((zone_fields_written exampleHost priorZoneState primaryZone).2.2.2.2.2.2.2.2.2.2.2.2.2.2.2
      { Enabled := true,
        Secondaries := [{ NetworkIDs := [0], IP := "9.9.9.9", Port := 53, Notify := true }] }
      rfl rfl).trans (by decide),
   ((zone_fields_written exampleHost priorZoneState
      primaryAloneZone).2.2.2.2.2.2.2.2.2.2.2.2.2.2.2
      { Enabled := true, Secondaries := [] } rfl rfl).trans (by decide),
   (zone_fields_written exampleHost priorZoneState
      primaryZone).2.2.2.2.2.2.2.1.trans (by decide),
   (zone_fields_written exampleHost priorZoneState
      primaryZone).2.2.2.2.2.2.2.2.2.1.trans (by decide)⟩

end NS1
